import Mathlib

/-!
# Kapowarr settings screens: download clients, credentials, metadata

A shallow embedding of `frontend/static/js/settings_download_clients.js` and
`frontend/static/js/settings_metadata.js`.

The page is an explicit state (`Page`, `SettingsPage`); every handler is a
function from the state before it runs, and the answers the backend gives to
the requests it makes, to the state after its promise chain has settled.  The
requests a handler issues are appended to the `log` of the state, in the order
in which they are issued.

A handler runs its statements up to a request on the page as it is, and each
callback on the page as it is when the answer arrives.  For the handlers that
open, test and save a client form, what the user and the other handlers do to
the page in between is an argument (`loadEditClientAmid`, `testEditClientAmid`,
`saveEditClientAmid` and their add-mode counterparts); `loadEditClient`,
`testEditClient`, `saveEditClient` and so on are the same runs with nothing
happening in between.
-/

namespace Kapowarr

/-! ## JavaScript values -/

/-- JavaScript values as far as the handlers look at them. -/
inductive JsVal where
  | undefined
  | null
  | bool (b : Bool)
  | num (n : Int)
  | str (s : String)
  | arr (items : List JsVal)
  | obj (fields : List (String × JsVal))

/-- An object literal: its keys in the order they are written, with their values. -/
abbrev JsObject := List (String × JsVal)

/-- The keys of an object literal. -/
def JsObject.keys (o : JsObject) : List String := o.map Prod.fst

/-- Property read `o[k]` on an object, `undefined` for an absent key; of a key
written more than once the last value counts, as in an object literal and in
`JSON.parse`. -/
def JsObject.get (o : JsObject) (k : String) : JsVal :=
  match o.reverse.find? (fun kv => kv.1 == k) with
  | some kv => kv.2
  | none => JsVal.undefined

/-- The expression `s || ''` for a value that is a string, `null` or `undefined`
(`none` stands for the last two): the empty string is falsy as well. -/
def orEmpty (s : Option String) : String :=
  match s with
  | some v => if v = "" then "" else v
  | none => ""

/-- The expression `el?.value || null`, where `v` is `none` when the element is
absent (`el?.value` is `undefined`) and the input's string otherwise. -/
def valueOrNull (v : Option String) : JsVal :=
  match v with
  | some s => if s = "" then JsVal.null else JsVal.str s
  | none => JsVal.null

/-- The strict test `v !== null`. -/
def JsVal.notNull : JsVal → Bool
  | JsVal.null => false
  | _ => true

/-- Property read `v.error`: `none` when the read throws a `TypeError` (on
`null` and `undefined`), the property of an object, and `undefined` on every
other value. -/
def JsVal.errorField : JsVal → Option JsVal
  | JsVal.undefined => none
  | JsVal.null => none
  | JsVal.obj fields => some (JsObject.get fields "error")
  | _ => some JsVal.undefined

/-! ## The backend, as the handlers see it -/

/-- How a promise returned by `fetchAPI`, `sendAPI` or `response.json()`
settles: resolved with a value, or rejected with a reason whose `status` is
the HTTP status (`none` when the reason carries no `status`, as with a network
error or a body that does not parse). -/
inductive Reply (α : Type) where
  | resolved (value : α)
  | rejected (status : Option Nat)

/-- One request handed to `fetchAPI` (method `GET`, no body) or `sendAPI`. -/
structure Request where
  method : String
  path : String
  api_key : String
  body : Option JsObject

/-- Modelled from the spec: `fetchAPI(path, key)` of the API client helper, which
is not part of these files; the request it issues. -/
def fetchAPI (path api_key : String) : Request :=
  { method := "GET", path := path, api_key := api_key, body := none }

/-- Modelled from the spec: `sendAPI(method, path, key, query, body)` of the API
client helper, which is not part of these files; the request it issues. -/
def sendAPI (method path api_key : String) (body : Option JsObject) : Request :=
  { method := method, path := path, api_key := api_key, body := body }

/-! ## The document -/

/-- The kinds of `input` element these forms hold: those whose value is free
text.  The field builder makes `text` and `password` inputs. -/
inductive InputType where
  | text
  | password
  | search
  | tel
  | url
  | email
  deriving DecidableEq

/-- An `input` element. -/
structure Input where
  id : String
  type : InputType
  value : String

/-- Line feed or carriage return. -/
def isLineBreak (c : Char) : Bool := c == Char.ofNat 10 || c == Char.ofNat 13

/-- ASCII whitespace: tab, line feed, form feed, carriage return, space. -/
def isAsciiWhitespace (c : Char) : Bool :=
  c == Char.ofNat 9 || c == Char.ofNat 10 || c == Char.ofNat 12 || c == Char.ofNat 13
    || c == Char.ofNat 32

/-- A string without its line feeds and carriage returns. -/
def stripNewlines (s : String) : String :=
  String.mk (s.data.filter (fun c => !isLineBreak c))

/-- A string without its leading and trailing ASCII whitespace. -/
def stripWhitespace (s : String) : String :=
  String.mk ((s.data.dropWhile isAsciiWhitespace).reverse.dropWhile isAsciiWhitespace).reverse

/-- What an `input` element keeps of a string assigned to its `value`: a
`text`, `password`, `search` or `tel` input drops line breaks; a `url` or
`email` input drops line breaks and then surrounding whitespace. -/
def sanitizeValue : InputType → String → String
  | InputType.text, s => stripNewlines s
  | InputType.password, s => stripNewlines s
  | InputType.search, s => stripNewlines s
  | InputType.tel, s => stripNewlines s
  | InputType.url, s => stripWhitespace (stripNewlines s)
  | InputType.email, s => stripWhitespace (stripNewlines s)

/-- A table row of a form: its label (text and `for`) and the inputs under it. -/
structure Row where
  labelText : String
  labelFor : String
  inputs : List Input

/-- The `tbody` of a client form with its `dataset`. -/
structure Form where
  dataset_id : Option String
  dataset_type : Option String
  rows : List Row

/-- An element shown or hidden by the visibility helper, with its text. -/
structure Banner where
  innerText : String
  hidden : Bool

/-- Modelled from the spec: `hide(toHide, toShow)` of the window/visibility
helper, which is not part of these files, for an element listed in `toHide`. -/
def Banner.hide (b : Banner) : Banner := { b with hidden := true }

/-- Modelled from the spec: `hide(toHide, toShow)` of the window/visibility
helper, which is not part of these files, for an element listed in `toShow`. -/
def Banner.show (b : Banner) : Banner := { b with hidden := false }

/-- The setter `el.innerText = text`. -/
def Banner.setText (b : Banner) (text : String) : Banner := { b with innerText := text }

/-- The call `classList.remove(...names)`. -/
def classListRemove (classes names : List String) : List String :=
  classes.filter (fun c => !(names.contains c))

/-- The call `classList.add(name)`. -/
def classListAdd (classes : List String) (name : String) : List String :=
  if classes.contains name then classes else classes ++ [name]

/-- A button of a client list, with the client it opens when clicked. -/
structure Entry where
  innerText : String
  onclick : Option Nat

/-- A row of a credential sub-list, cloned from a template: the node, the texts
written into it (by the class of the cell) and the request its delete button
sends when clicked. -/
structure CredRow where
  node : Nat
  cells : List (String × String)
  onclick : Request

/-- The state of the download-client settings page. -/
structure Page where
  editForm : Form
  addForm : Form
  testEditButton : List String
  testAddButton : List String
  editError : Banner
  addError : Banner
  window : Option String
  torrentList : List Entry
  dcppList : List Entry
  megaCreds : List CredRow
  pixeldrainCreds : List CredRow
  builtinTag : Option String
  builtinError : Banner
  addMegaEmail : String
  addMegaPassword : String
  addPixeldrainKey : String
  nextNode : Nat
  log : List Request

/-- Modelled from the spec: `showWindow(id)` of the window/visibility helper,
which is not part of these files. -/
def showWindow (p : Page) (id : String) : Page := { p with window := some id }

/-- Modelled from the spec: `closeWindow()` of the window/visibility helper,
which is not part of these files. -/
def closeWindow (p : Page) : Page := { p with window := none }

/-- The page after a request has been issued. -/
def Page.issue (p : Page) (r : Request) : Page := { p with log := p.log ++ [r] }

/-- The page a callback finds when the answer to a request arrives: `others` is
what the user and the other handlers did to the document while the request
was in flight.  The log keeps recording the requests of the one run that is
followed. -/
def Page.meanwhile (p : Page) (others : Page → Page) : Page :=
  { others p with log := p.log }

/-! ### Selectors on a form -/

/-- All inputs of a form, in document order. -/
def Form.inputs (f : Form) : List Input := (f.rows.map Row.inputs).flatten

/-- The call `form.querySelector('#' + id)`: the first input with the id. -/
def Form.querySelector (f : Form) (id : String) : Option Input :=
  f.inputs.find? (fun i => i.id == id)

/-- The read `form.querySelector('#' + id)?.value`. -/
def Form.valueOf (f : Form) (id : String) : Option String :=
  (f.querySelector id).map Input.value

/-- Whether a row matches `:has(input#a, input#b)`. -/
def Row.hasInput (r : Row) (ids : List String) : Bool :=
  r.inputs.any (fun i => ids.contains i.id)

/-- The rows left after
`form.querySelectorAll('tr:not(:has(input#a, input#b))').forEach(el => el.remove())`. -/
def removeRowsWithout (rows : List Row) (ids : List String) : List Row :=
  rows.filter (fun r => r.hasInput ids)

/-- The assignment `el.value = v` on an `input` element. -/
def Input.setValue (i : Input) (v : String) : Input :=
  { i with value := sanitizeValue i.type v }

/-- Assigns `v` to the value of the first input with the id; `none` when there
is none. -/
def setFirstInput (id v : String) : List Input → Option (List Input)
  | [] => none
  | i :: rest =>
    if i.id = id then some (i.setValue v :: rest)
    else (setFirstInput id v rest).map (fun rest' => i :: rest')

/-- The assignment `form.querySelector('#' + id).value = v` on the rows of a form;
`none` when the selector finds nothing and the assignment throws. -/
def setFirstValue (id v : String) : List Row → Option (List Row)
  | [] => none
  | r :: rest =>
    match setFirstInput id v r.inputs with
    | some inputs' => some ({ r with inputs := inputs' } :: rest)
    | none => (setFirstValue id v rest).map (fun rest' => r :: rest')

/-- The loop `form.querySelectorAll('#a, #b').forEach(el => el.value = v)`. -/
def setAllValues (ids : List String) (v : String) (rows : List Row) : List Row :=
  rows.map (fun r =>
    { r with inputs := r.inputs.map (fun i => if ids.contains i.id then i.setValue v else i) })

/-! ### The dynamic field builder -/

/-- The row built by `createUsernameInput(id)`. -/
def createUsernameInput (id : String) : Row :=
  { labelText := "Username", labelFor := id,
    inputs := [{ id := id, type := InputType.text, value := "" }] }

/-- The row built by `createPasswordInput(id)`. -/
def createPasswordInput (id : String) : Row :=
  { labelText := "Password", labelFor := id,
    inputs := [{ id := id, type := InputType.password, value := "" }] }

/-- The row built by `createApiTokenInput(id)`. -/
def createApiTokenInput (id : String) : Row :=
  { labelText := "API Token", labelFor := id,
    inputs := [{ id := id, type := InputType.text, value := "" }] }

/-- The assignment `row.querySelector('input').value = v` on a built row. -/
def Row.setInputValue (r : Row) (v : String) : Row :=
  match r.inputs with
  | [] => r
  | i :: rest => { r with inputs := i.setValue v :: rest }

/-! ## Data sent by the backend -/

/-- A client record, the `result` of `GET /externalclients/{id}` and an item of
the `result` of `GET /externalclients`. -/
structure ClientRecord where
  id : Nat
  title : String
  base_url : String
  download_type : Nat
  client_type : String
  username : Option String
  password : Option String
  api_token : Option String

/-- A client-type descriptor, a value of the `result` of
`GET /externalclients/options`. -/
structure Descriptor where
  download_type : Nat
  tokens : List String

/-- The `result` of `GET /externalclients/options`, keyed by client-type name. -/
abbrev ClientOptions := List (String × Descriptor)

/-- The read `options.result[client_type]`, `none` for `undefined`. -/
def ClientOptions.get (o : ClientOptions) (client_type : String) : Option Descriptor :=
  (o.find? (fun kv => kv.1 == client_type)).map Prod.snd

/-- The `result` of `POST /externalclients/test`: `description` is a string or
`null`; `described` is false when the answer has no `description` at all and
reading it gives `undefined`. -/
structure TestResult where
  success : Bool
  description : Option String
  described : Bool := true

/-- A credential record, an item of the `result` of `GET /credentials`. -/
structure Credential where
  id : Nat
  source : String
  email : String
  password : String
  api_key : String

/-- The text an element shows after `el.innerText = v` for a value that is a
string or `null`. -/
def textOf (v : Option String) : String := v.getD ""

/-- The text an element shows after `el.innerText = json.result.description`. -/
def TestResult.shown (result : TestResult) : String :=
  if result.described then textOf result.description else "undefined"

/-- Where a promise chain ended: it ran to its last statement, or it stopped
early because a promise was rejected or a callback threw. -/
inductive Outcome where
  | completed (page : Page)
  | stopped (page : Page)

/-- The page a chain left behind. -/
def Outcome.page : Outcome → Page
  | Outcome.completed p => p
  | Outcome.stopped p => p

/-! ## The client form controller -/

/-- The value of `form.dataset.id` inside a template string. -/
def datasetText (v : Option String) : String := v.getD "undefined"

/-- The value of `form.dataset.type` as a property of a body. -/
def datasetVal (v : Option String) : JsVal :=
  match v with
  | some s => JsVal.str s
  | none => JsVal.undefined

/-- The callback of `loadExternalClients` on the `result` of `GET /externalclients`:
the loop over the clients, which throws at a client whose `download_type` has
no list. -/
def appendClients : List ClientRecord → Page → Page
  | [], p => p
  | c :: rest, p =>
    let entry : Entry := { innerText := c.title, onclick := some c.id }
    if c.download_type = 2 then
      appendClients rest { p with torrentList := p.torrentList ++ [entry] }
    else if c.download_type = 3 then
      appendClients rest { p with dcppList := p.dcppList ++ [entry] }
    else p

/-- The callback of `loadExternalClients`, run once `GET /externalclients` is
answered. -/
def loadExternalClientsThen (p : Page) (clients : Reply (List ClientRecord)) : Page :=
  match clients with
  | Reply.rejected _ => p
  | Reply.resolved result =>
    appendClients result
      { p with torrentList := p.torrentList.take 1, dcppList := p.dcppList.take 1 }

/-- The function `loadExternalClients(api_key)`. -/
def loadExternalClients (p : Page) (api_key : String)
    (clients : Reply (List ClientRecord)) : Page :=
  loadExternalClientsThen (p.issue (fetchAPI "/externalclients" api_key)) clients

/-- The three `if (client_options.includes(...))` statements of `loadEditClient`:
each builds a row, fills its input from the record and appends it to the form. -/
def appendEditInputs (client_options : List String) (result : ClientRecord)
    (rows : List Row) : List Row :=
  let rows1 :=
    if client_options.contains "username" then
      rows ++ [(createUsernameInput "edit-username-input").setInputValue
        (orEmpty result.username)]
    else rows
  let rows2 :=
    if client_options.contains "password" then
      rows1 ++ [(createPasswordInput "edit-password-input").setInputValue
        (orEmpty result.password)]
    else rows1
  if client_options.contains "api_token" then
    rows2 ++ [(createApiTokenInput "edit-token-input").setInputValue
      (orEmpty result.api_token)]
  else rows2

/-- The function `loadEditClient(api_key, id)`, with what else happens to the
page while the record is fetched and while the options are fetched: the
statements before the first `fetchAPI` run on the page as it is, each callback
on the page as it is when its answer arrives. -/
def loadEditClientAmid (p : Page) (api_key : String) (id : Nat)
    (duringRecord : Page → Page) (client_data : Reply ClientRecord)
    (duringOptions : Page → Page) (options : Reply ClientOptions) : Outcome :=
  let form0 : Form :=
    { p.editForm with
      dataset_id := some (toString id),
      rows := removeRowsWithout p.editForm.rows ["edit-title-input", "edit-baseurl-input"] }
  let p0 : Page :=
    ({ p with
        editForm := form0,
        testEditButton := classListRemove p.testEditButton ["show-success", "show-fail"],
        editError := p.editError.hide }).issue
      (fetchAPI ("/externalclients/" ++ toString id) api_key)
  let live1 := p0.meanwhile duringRecord
  match client_data with
  | Reply.rejected _ => Outcome.stopped live1
  | Reply.resolved result =>
    let client_type := result.client_type
    let form1 : Form := { live1.editForm with dataset_type := some client_type }
    let p1 : Page :=
      ({ live1 with editForm := form1 }).issue (fetchAPI "/externalclients/options" api_key)
    let live2 := p1.meanwhile duringOptions
    match options with
    | Reply.rejected _ => Outcome.stopped live2
    | Reply.resolved opts =>
      match opts.get client_type with
      | none => Outcome.stopped live2
      | some descriptor =>
        let client_options := descriptor.tokens
        let form2 := live2.editForm
        match setFirstValue "edit-title-input" (orEmpty (some result.title)) form2.rows with
        | none => Outcome.stopped live2
        | some rows2 =>
          match setFirstValue "edit-baseurl-input" result.base_url rows2 with
          | none => Outcome.stopped { live2 with editForm := { form2 with rows := rows2 } }
          | some rows3 =>
            Outcome.completed
              (showWindow
                { live2 with
                  editForm :=
                    { form2 with rows := appendEditInputs client_options result rows3 } }
                "edit-ext-client-window")

/-- The function `loadEditClient(api_key, id)` when nothing else touches the page
while its two requests are in flight. -/
def loadEditClient (p : Page) (api_key : String) (id : Nat)
    (client_data : Reply ClientRecord) (options : Reply ClientOptions) : Outcome :=
  loadEditClientAmid p api_key id (fun q => q) client_data (fun q => q) options

/-- The object `data` built by `testEditClient`; `none` when the base-url input
is missing and reading its `value` throws. -/
def testEditData (form : Form) : Option JsObject :=
  match form.valueOf "edit-baseurl-input" with
  | none => none
  | some base_url =>
    some
      [ ("client_type", datasetVal form.dataset_type),
        ("base_url", JsVal.str base_url),
        ("username", valueOrNull (form.valueOf "edit-username-input")),
        ("password", valueOrNull (form.valueOf "edit-password-input")),
        ("api_token", valueOrNull (form.valueOf "edit-token-input")) ]

/-- The function `testEditClient(api_key)`, with what else happens to the page
while the test request is in flight: the page after the chain has settled and
the value the returned promise resolves with (`none` when it is rejected).
The statements before `sendAPI` run on the page as it is; the callback adds
its class and writes the banner on the page as it is when the answer arrives. -/
def testEditClientAmid (p : Page) (api_key : String) (duringTest : Page → Page)
    (answer : Reply TestResult) : Page × Option Bool :=
  let pre : Page :=
    { p with
      editError := p.editError.hide,
      testEditButton := classListRemove p.testEditButton ["show-success", "show-fail"] }
  match testEditData p.editForm with
  | none => (pre, none)
  | some data =>
    let p0 := pre.issue (sendAPI "POST" "/externalclients/test" api_key (some data))
    let live := p0.meanwhile duringTest
    match answer with
    | Reply.rejected _ => (live, none)
    | Reply.resolved result =>
      if result.success then
        ({ live with testEditButton := classListAdd live.testEditButton "show-success" },
          some result.success)
      else
        ({ live with
            testEditButton := classListAdd live.testEditButton "show-fail",
            editError := (live.editError.setText result.shown).show },
          some result.success)

/-- The function `testEditClient(api_key)` when nothing else touches the page
while the test request is in flight. -/
def testEditClient (p : Page) (api_key : String) (answer : Reply TestResult) :
    Page × Option Bool :=
  testEditClientAmid p api_key (fun q => q) answer

/-- The object `data` built by `saveEditClient`; `none` when the title or the
base-url input is missing and reading its `value` throws. -/
def saveEditData (form : Form) : Option JsObject :=
  match form.valueOf "edit-title-input", form.valueOf "edit-baseurl-input" with
  | some title, some base_url =>
    some
      [ ("title", JsVal.str title),
        ("base_url", JsVal.str base_url),
        ("username", valueOrNull (form.valueOf "edit-username-input")),
        ("password", valueOrNull (form.valueOf "edit-password-input")),
        ("api_token", valueOrNull (form.valueOf "edit-token-input")) ]
  | _, _ => none

/-- The function `saveEditClient()`, with the key `usingApiKey()` resolves to and
with what else happens to the page while the test, the `PUT` and the reload of
the lists are in flight.  The body of the `PUT` is read from the form as it is
when the test has been answered. -/
def saveEditClientAmid (p : Page) (api_key : String) (duringTest : Page → Page)
    (test : Reply TestResult) (duringSave : Page → Page) (put : Reply Unit)
    (duringReload : Page → Page) (clients : Reply (List ClientRecord)) : Page :=
  match testEditClientAmid p api_key duringTest test with
  | (p1, none) => p1
  | (p1, some false) => p1
  | (p1, some true) =>
    let form := p1.editForm
    let id := form.dataset_id
    match saveEditData form with
    | none => p1
    | some data =>
      let p2 :=
        p1.issue (sendAPI "PUT" ("/externalclients/" ++ datasetText id) api_key (some data))
      let live2 := p2.meanwhile duringSave
      match put with
      | Reply.resolved _ =>
        loadExternalClientsThen
          ((closeWindow (live2.issue (fetchAPI "/externalclients" api_key))).meanwhile
            duringReload)
          clients
      | Reply.rejected status =>
        if status = some 400 then
          { live2 with editError := (live2.editError.setText "*Client is downloading").show }
        else live2

/-- The function `saveEditClient()` when nothing else touches the page while its
requests are in flight. -/
def saveEditClient (p : Page) (api_key : String) (test : Reply TestResult)
    (put : Reply Unit) (clients : Reply (List ClientRecord)) : Page :=
  saveEditClientAmid p api_key (fun q => q) test (fun q => q) put (fun q => q) clients

/-- The function `deleteClient(api_key)`. -/
def deleteClient (p : Page) (api_key : String) (delete : Reply Unit)
    (clients : Reply (List ClientRecord)) : Page :=
  let id := p.editForm.dataset_id
  let p0 := p.issue (sendAPI "DELETE" ("/externalclients/" ++ datasetText id) api_key none)
  match delete with
  | Reply.resolved _ =>
    loadExternalClientsThen
      (closeWindow (p0.issue (fetchAPI "/externalclients" api_key))) clients
  | Reply.rejected status =>
    if status = some 400 then
      { p0 with editError := (p0.editError.setText "*Client is downloading").show }
    else p0

/-- The three `if (client_options.includes(...))` statements of `loadAddClient`:
each builds a row and appends it to the form. -/
def appendAddInputs (client_options : List String) (rows : List Row) : List Row :=
  let rows1 :=
    if client_options.contains "username" then
      rows ++ [createUsernameInput "add-username-input"]
    else rows
  let rows2 :=
    if client_options.contains "password" then
      rows1 ++ [createPasswordInput "add-password-input"]
    else rows1
  if client_options.contains "api_token" then
    rows2 ++ [createApiTokenInput "add-token-input"]
  else rows2

/-- The function `loadAddClient(api_key, client_type)`, with what else happens to
the page while the options are fetched: the statements before `fetchAPI` run on
the page as it is, the callback appends to the form as it is when the answer
arrives. -/
def loadAddClientAmid (p : Page) (api_key client_type : String)
    (duringOptions : Page → Page) (options : Reply ClientOptions) : Outcome :=
  let rows0 := removeRowsWithout p.addForm.rows ["add-title-input", "add-baseurl-input"]
  let form0 : Form :=
    { p.addForm with
      dataset_type := some client_type,
      rows := setAllValues ["add-title-input", "add-baseurl-input"] "" rows0 }
  let p0 : Page :=
    ({ p with
        addForm := form0,
        testAddButton := classListRemove p.testAddButton ["show-success", "show-fail"] }).issue
      (fetchAPI "/externalclients/options" api_key)
  let live := p0.meanwhile duringOptions
  match options with
  | Reply.rejected _ => Outcome.stopped live
  | Reply.resolved opts =>
    match opts.get client_type with
    | none => Outcome.stopped live
    | some descriptor =>
      let client_options := descriptor.tokens
      let form1 := live.addForm
      Outcome.completed
        (showWindow
          { live with addForm := { form1 with rows := appendAddInputs client_options form1.rows } }
          "add-ext-client-window")

/-- The function `loadAddClient(api_key, client_type)` when nothing else touches
the page while the options are fetched. -/
def loadAddClient (p : Page) (api_key client_type : String)
    (options : Reply ClientOptions) : Outcome :=
  loadAddClientAmid p api_key client_type (fun q => q) options

/-- The object `data` built by `testAddClient`; `none` when the base-url input
is missing and reading its `value` throws. -/
def testAddData (form : Form) : Option JsObject :=
  match form.valueOf "add-baseurl-input" with
  | none => none
  | some base_url =>
    some
      [ ("client_type", datasetVal form.dataset_type),
        ("base_url", JsVal.str base_url),
        ("username", valueOrNull (form.valueOf "add-username-input")),
        ("password", valueOrNull (form.valueOf "add-password-input")),
        ("api_token", valueOrNull (form.valueOf "add-token-input")) ]

/-- The function `testAddClient(api_key)`, with what else happens to the page
while the test request is in flight: the page after the chain has settled and
the value the returned promise resolves with (`none` when it is rejected).
The `else` has no braces: it governs `classList.add('show-fail')` only, and the
two statements after it run for every answer. -/
def testAddClientAmid (p : Page) (api_key : String) (duringTest : Page → Page)
    (answer : Reply TestResult) : Page × Option Bool :=
  let pre : Page :=
    { p with
      addError := p.addError.hide,
      testAddButton := classListRemove p.testAddButton ["show-success", "show-fail"] }
  match testAddData p.addForm with
  | none => (pre, none)
  | some data =>
    let p0 := pre.issue (sendAPI "POST" "/externalclients/test" api_key (some data))
    let live := p0.meanwhile duringTest
    match answer with
    | Reply.rejected _ => (live, none)
    | Reply.resolved result =>
      let button :=
        if result.success then classListAdd live.testAddButton "show-success"
        else classListAdd live.testAddButton "show-fail"
      ({ live with
          testAddButton := button,
          addError := (live.addError.setText result.shown).show },
        some result.success)

/-- The function `testAddClient(api_key)` when nothing else touches the page
while the test request is in flight. -/
def testAddClient (p : Page) (api_key : String) (answer : Reply TestResult) :
    Page × Option Bool :=
  testAddClientAmid p api_key (fun q => q) answer

/-- The object `data` built by `saveAddClient`; `none` when the title or the
base-url input is missing and reading its `value` throws. -/
def saveAddData (form : Form) : Option JsObject :=
  match form.valueOf "add-title-input", form.valueOf "add-baseurl-input" with
  | some title, some base_url =>
    some
      [ ("client_type", datasetVal form.dataset_type),
        ("title", JsVal.str title),
        ("base_url", JsVal.str base_url),
        ("username", valueOrNull (form.valueOf "add-username-input")),
        ("password", valueOrNull (form.valueOf "add-password-input")),
        ("api_token", valueOrNull (form.valueOf "add-token-input")) ]
  | _, _ => none

/-- The function `saveAddClient()`, with the key `usingApiKey()` resolves to and
with what else happens to the page while the test, the `POST` and the reload of
the lists are in flight.  The body of the `POST` is read from the form as it
is when the test has been answered. -/
def saveAddClientAmid (p : Page) (api_key : String) (duringTest : Page → Page)
    (test : Reply TestResult) (duringSave : Page → Page) (post : Reply Unit)
    (duringReload : Page → Page) (clients : Reply (List ClientRecord)) : Page :=
  match testAddClientAmid p api_key duringTest test with
  | (p1, none) => p1
  | (p1, some false) => p1
  | (p1, some true) =>
    let form := p1.addForm
    match saveAddData form with
    | none => p1
    | some data =>
      let p2 := p1.issue (sendAPI "POST" "/externalclients" api_key (some data))
      let live2 := p2.meanwhile duringSave
      match post with
      | Reply.resolved _ =>
        loadExternalClientsThen
          ((closeWindow (live2.issue (fetchAPI "/externalclients" api_key))).meanwhile
            duringReload)
          clients
      | Reply.rejected _ => live2

/-- The function `saveAddClient()` when nothing else touches the page while its
requests are in flight. -/
def saveAddClient (p : Page) (api_key : String) (test : Reply TestResult)
    (post : Reply Unit) (clients : Reply (List ClientRecord)) : Page :=
  saveAddClientAmid p api_key (fun q => q) test (fun q => q) post (fun q => q) clients

/-! ## The credential panel controller

The inputs under `#add-mega` and `#add-pixeldrain` are taken to be the inputs
of `#mega-form` and `#pixeldrain-form`. -/

/-- The body of the loop of `fillCredentials` over the `result`: one clone of a
template per record whose source is known, with the next free node. -/
def appendCredentials (api_key : String) : List Credential → Page → Page
  | [], p => p
  | result :: rest, p =>
    if result.source = "mega" then
      let row : CredRow :=
        { node := p.nextNode,
          cells := [("mega-email", result.email), ("mega-password", result.password)],
          onclick := sendAPI "DELETE" ("/credentials/" ++ toString result.id) api_key none }
      appendCredentials api_key rest
        { p with megaCreds := p.megaCreds ++ [row], nextNode := p.nextNode + 1 }
    else if result.source = "pixeldrain" then
      let row : CredRow :=
        { node := p.nextNode,
          cells := [("pixeldrain-key", result.api_key)],
          onclick := sendAPI "DELETE" ("/credentials/" ++ toString result.id) api_key none }
      appendCredentials api_key rest
        { p with pixeldrainCreds := p.pixeldrainCreds ++ [row], nextNode := p.nextNode + 1 }
    else appendCredentials api_key rest p

/-- The function `fillCredentials(api_key)`. -/
def fillCredentials (p : Page) (api_key : String) (creds : Reply (List Credential)) : Page :=
  let p0 := p.issue (fetchAPI "/credentials" api_key)
  let p1 : Page :=
    { p0 with addMegaEmail := "", addMegaPassword := "", addPixeldrainKey := "" }
  match creds with
  | Reply.rejected _ => p1
  | Reply.resolved result =>
    appendCredentials api_key result { p1 with megaCreds := [], pixeldrainCreds := [] }

/-- The `onclick` of the delete button of a credential row: the request is sent
and, once it is answered, `row.remove()` takes the node out of its list. -/
def deleteCredential (p : Page) (row : CredRow) (answer : Reply Unit) : Page :=
  let p0 := p.issue row.onclick
  match answer with
  | Reply.rejected _ => p0
  | Reply.resolved _ =>
    { p0 with
      megaCreds := p0.megaCreds.filter (fun r => r.node != row.node),
      pixeldrainCreds := p0.pixeldrainCreds.filter (fun r => r.node != row.node) }

/-- The object `data` built by `addCredential`, `none` for `undefined`. -/
def addCredentialData (p : Page) : Option JsObject :=
  let source := p.builtinTag
  if source = some "mega" then
    some
      [ ("source", datasetVal source),
        ("email", JsVal.str p.addMegaEmail),
        ("password", JsVal.str p.addMegaPassword) ]
  else if source = some "pixeldrain" then
    some
      [ ("source", datasetVal source),
        ("api_key", JsVal.str p.addPixeldrainKey) ]
  else none

/-- The function `addCredential()`, with the key `usingApiKey()` resolves to;
`errorBody` is how `e.json()` settles for a rejected request, with the
`description` of its `result`. -/
def addCredential (p : Page) (api_key : String) (post : Reply Unit)
    (errorBody : Reply (Option String)) (creds : Reply (List Credential)) : Page :=
  let p0 : Page := { p with builtinError := p.builtinError.hide }
  let data := addCredentialData p0
  let p1 := p0.issue (sendAPI "POST" "/credentials" api_key data)
  match post with
  | Reply.resolved _ => fillCredentials p1 api_key creds
  | Reply.rejected status =>
    if status = some 400 then
      match errorBody with
      | Reply.resolved description =>
        { p1 with builtinError := (p1.builtinError.setText (textOf description)).show }
      | Reply.rejected _ => p1
    else p1

/-! ## The settings panel controller -/

/-- The state of the metadata settings page. -/
structure SettingsPage where
  saveButtonText : String
  dateTypeInput : String
  log : List Request

/-- The function `fillSettings(api_key)`, with the `date_type` of the `result`. -/
def fillSettings (p : SettingsPage) (api_key : String) (settings : Reply String) :
    SettingsPage :=
  let p0 : SettingsPage := { p with log := p.log ++ [fetchAPI "/settings" api_key] }
  match settings with
  | Reply.rejected _ => p0
  | Reply.resolved date_type => { p0 with dateTypeInput := date_type }

/-- The statements of `saveSettings(api_key)` that run before the request is
answered. -/
def saveSettingsStart (p : SettingsPage) (api_key : String) : SettingsPage :=
  let data : JsObject := [("date_type", JsVal.str p.dateTypeInput)]
  { p with
    saveButtonText := "Saving",
    log := p.log ++ [sendAPI "PUT" "/settings" api_key (some data)] }

/-- The function `saveSettings(api_key)`: `answer` is how the request settles
and, when it resolves, how `response.json()` settles. -/
def saveSettings (p : SettingsPage) (api_key : String) (answer : Reply (Reply JsVal)) :
    SettingsPage :=
  let p0 := saveSettingsStart p api_key
  let failed : SettingsPage := { p0 with saveButtonText := "Failed" }
  match answer with
  | Reply.rejected _ => failed
  | Reply.resolved (Reply.rejected _) => failed
  | Reply.resolved (Reply.resolved json) =>
    match json.errorField with
    | none => failed
    | some error =>
      if error.notNull then failed
      else { p0 with saveButtonText := "Saved" }

/-! ## A concrete page

The forms as the page's markup ships them: a title row and a base-url row. -/

/-- A client form holding the two static rows, with the given ids. -/
def blankForm (titleId baseId : String) : Form :=
  { dataset_id := none, dataset_type := none,
    rows :=
      [ { labelText := "Title", labelFor := titleId,
          inputs := [{ id := titleId, type := InputType.text, value := "" }] },
        { labelText := "Base URL", labelFor := baseId,
          inputs := [{ id := baseId, type := InputType.text, value := "" }] } ] }

/-- The settings page before any handler has run. -/
def blankPage : Page :=
  { editForm := blankForm "edit-title-input" "edit-baseurl-input",
    addForm := blankForm "add-title-input" "add-baseurl-input",
    testEditButton := [], testAddButton := [],
    editError := { innerText := "", hidden := true },
    addError := { innerText := "", hidden := true },
    window := none, torrentList := [], dcppList := [],
    megaCreds := [], pixeldrainCreds := [],
    builtinTag := none, builtinError := { innerText := "", hidden := true },
    addMegaEmail := "", addMegaPassword := "", addPixeldrainKey := "",
    nextNode := 0, log := [] }

/-- The user types `v` into the first input with the id (nothing happens when
there is none). -/
def Form.typeInto (f : Form) (id v : String) : Form :=
  { f with rows := (setFirstValue id v f.rows).getD f.rows }

/-- The requests issued since the log was `before`. -/
def Page.issuedSince (p : Page) (before : List Request) : List Request :=
  p.log.drop before.length

/-- A descriptor table with one client type that asks for a username and a
password. -/
def exampleOptions : ClientOptions :=
  [("qBittorrent", { download_type := 2, tokens := ["username", "password"] })]

/-- The add form opened for `qBittorrent` on the blank page. -/
def exampleAddOpened : Page :=
  (loadAddClient blankPage "key" "qBittorrent" (Reply.resolved exampleOptions)).page

/-- The opened add form with all four of its inputs filled in. -/
def exampleAddFilled : Page :=
  { exampleAddOpened with
    addForm :=
      (((exampleAddOpened.addForm.typeInto "add-title-input" "Seedbox").typeInto
        "add-baseurl-input" "http://box:8080").typeInto
        "add-username-input" "admin").typeInto "add-password-input" "hunter2" }

/-- The call `form.querySelector('#' + id)` on the rows of a form. -/
def rowsFind (rows : List Row) (id : String) : Option Input :=
  (rows.map Row.inputs).flatten.find? (fun i => i.id == id)

/-- The kind of the first input with the id, `none` when there is none. -/
def Form.typeOf (f : Form) (id : String) : Option InputType :=
  (f.querySelector id).map Input.type

/-- The kinds of input that keep everything of an assigned string but its line
breaks. -/
def isTextKind : InputType → Bool
  | InputType.text => true
  | InputType.password => true
  | InputType.search => true
  | InputType.tel => true
  | InputType.url => false
  | InputType.email => false

/-- The read `form.querySelector('#' + id)?.value` on the rows of a form. -/
def rowsValueOf (rows : List Row) (id : String) : Option String :=
  ((rows.map Row.inputs).flatten.find? (fun i => i.id == id)).map Input.value

/-- The ids of the inputs of a row. -/
def Row.ids (r : Row) : List String := r.inputs.map Input.id

/-- The nodes of the two credential sub-lists are pairwise different and all
below the next free node. -/
def Page.credNodesFresh (p : Page) : Prop :=
  (p.megaCreds.map CredRow.node).Nodup
  ∧ (p.pixeldrainCreds.map CredRow.node).Nodup
  ∧ (∀ a ∈ p.megaCreds, ∀ b ∈ p.pixeldrainCreds, a.node ≠ b.node)
  ∧ (∀ a ∈ p.megaCreds, a.node < p.nextNode)
  ∧ (∀ b ∈ p.pixeldrainCreds, b.node < p.nextNode)

/-- The row `fillCredentials` shows for a record with source `mega`: the texts
of its cells. -/
def megaCells (c : Credential) : List (String × String) :=
  [("mega-email", c.email), ("mega-password", c.password)]

/-- The row `fillCredentials` shows for a record with source `pixeldrain`: the
text of its cell. -/
def pixeldrainCells (c : Credential) : List (String × String) :=
  [("pixeldrain-key", c.api_key)]

/-- The request `DELETE /credentials/{id}` for a record. -/
def deleteRequest (api_key : String) (c : Credential) : Request :=
  sendAPI "DELETE" ("/credentials/" ++ toString c.id) api_key none

/-- Three stored credentials: one of an unknown source between a `mega` and a
`pixeldrain` one. -/
def exampleCredentials : List Credential :=
  [ { id := 4, source := "mega", email := "a@b.c", password := "pw", api_key := "" },
    { id := 5, source := "ftp", email := "", password := "", api_key := "" },
    { id := 9, source := "pixeldrain", email := "", password := "", api_key := "k9" } ]

/-- No row that holds one of the `static` inputs holds one of the `dynamic`
inputs as well: the title row and the base-url row carry no credential input. -/
def staticRowsClean (rows : List Row) (static dynamic : List String) : Prop :=
  ∀ r ∈ rows, r.hasInput static = true → r.hasInput dynamic = false

/-- What a form shows after it has been opened for a descriptor with the given
`tokens`: for each of the three tokens an input row exactly when the token is
declared, never more than one row for a token, the rows with a `static` input
those of the form `before` (same inputs, same order), and no other row; the
rows with a `static` input again carry none of the three inputs. -/
def showsDeclaredFields (tokens : List String) (before after : List Row)
    (static : List String) (usernameId passwordId tokenId : String) : Prop :=
  (("username" ∈ tokens ↔ ∃ r ∈ after, usernameId ∈ r.ids)
    ∧ ("password" ∈ tokens ↔ ∃ r ∈ after, passwordId ∈ r.ids)
    ∧ ("api_token" ∈ tokens ↔ ∃ r ∈ after, tokenId ∈ r.ids))
  ∧ ((after.filter (fun r => r.hasInput [usernameId])).length ≤ 1
    ∧ (after.filter (fun r => r.hasInput [passwordId])).length ≤ 1
    ∧ (after.filter (fun r => r.hasInput [tokenId])).length ≤ 1)
  ∧ (after.filter (fun r => r.hasInput static)).map Row.ids =
      (before.filter (fun r => r.hasInput static)).map Row.ids
  ∧ (∀ r ∈ after, r.hasInput static = true
      ∨ r.ids = [usernameId] ∨ r.ids = [passwordId] ∨ r.ids = [tokenId])
  ∧ staticRowsClean after static [usernameId, passwordId, tokenId]

/-- The rows hold no input for a token the descriptor does not declare. -/
def noInputWhenUndeclared (tokens : List String) (rows : List Row)
    (usernameId passwordId tokenId : String) : Prop :=
  ("username" ∉ tokens → rowsValueOf rows usernameId = none)
  ∧ ("password" ∉ tokens → rowsValueOf rows passwordId = none)
  ∧ ("api_token" ∉ tokens → rowsValueOf rows tokenId = none)

/-- A body carries `null` for every token the descriptor does not declare. -/
def nullWhenUndeclared (tokens : List String) (body : JsObject) : Prop :=
  ("username" ∉ tokens → body.get "username" = JsVal.null)
  ∧ ("password" ∉ tokens → body.get "password" = JsVal.null)
  ∧ ("api_token" ∉ tokens → body.get "api_token" = JsVal.null)

/-- The ids of the rows appended for a descriptor, in the order of the three
`if` statements. -/
def declaredIds (tokens : List String) (usernameId passwordId tokenId : String) :
    List (List String) :=
  (if "username" ∈ tokens then [[usernameId]] else [])
    ++ (if "password" ∈ tokens then [[passwordId]] else [])
    ++ (if "api_token" ∈ tokens then [[tokenId]] else [])

/-- The metadata settings page before any handler has run. -/
def blankSettings : SettingsPage :=
  { saveButtonText := "Save", dateTypeInput := "cover_date", log := [] }

/-- A fetched client record of the example client type. -/
def exampleRecord : ClientRecord :=
  { id := 7, title := "Seedbox", base_url := "http://box:8080", download_type := 2,
    client_type := "qBittorrent", username := some "admin", password := none,
    api_token := none }

/-- The edit form opened for the example record on the blank page. -/
def exampleEditOpened : Page :=
  (loadEditClient blankPage "key" 7 (Reply.resolved exampleRecord)
    (Reply.resolved exampleOptions)).page

/-- A record whose title holds a line break. -/
def lineBreakRecord : ClientRecord :=
  { exampleRecord with title := "Seed\nbox" }

/-- A page whose add form carries a token input in its title row, holding a
token. -/
def crowdedPage : Page :=
  { blankPage with
    addForm :=
      { dataset_id := none, dataset_type := none,
        rows :=
          [ { labelText := "Title", labelFor := "add-title-input",
              inputs :=
                [ { id := "add-title-input", type := InputType.text, value := "" },
                  { id := "add-token-input", type := InputType.text, value := "secret" } ] },
            { labelText := "Base URL", labelFor := "add-baseurl-input",
              inputs := [{ id := "add-baseurl-input", type := InputType.text, value := "" }] } ] } }

/-! ## What else can happen while a request is in flight -/

/-- The user types into the title input of the edit form. -/
def typeEditTitle (q : Page) : Page :=
  { q with editForm := q.editForm.typeInto "edit-title-input" "Renamed" }

/-- The user types another address into the base-url input of the edit form. -/
def typeEditBaseUrl (q : Page) : Page :=
  { q with editForm := q.editForm.typeInto "edit-baseurl-input" "http://other:9090" }

/-- The user types another address into the base-url input of the add form. -/
def typeAddBaseUrl (q : Page) : Page :=
  { q with addForm := q.addForm.typeInto "add-baseurl-input" "http://other:9090" }

/-- Test is clicked a second time, and that test is answered with a failure. -/
def otherTestFails (q : Page) : Page :=
  (testEditClient q "key"
    (Reply.resolved { success := false, description := some "no route" })).1

/-- The entry of the `qBittorrent` client type is clicked a second time, and
that second open of the add form is answered. -/
def otherAddOpen (q : Page) : Page :=
  (loadAddClient q "key" "qBittorrent" (Reply.resolved exampleOptions)).page

/-! ## Lemmas on the log -/

theorem meanwhile_nothing (p : Page) : p.meanwhile (fun q => q) = p := rfl

theorem meanwhile_log (p : Page) (others : Page → Page) :
    (p.meanwhile others).log = p.log := rfl


theorem appendCredentials_log (api_key : String) (l : List Credential) (p : Page) :
    (appendCredentials api_key l p).log = p.log := by
  induction l generalizing p with
  | nil => rfl
  | cons c rest ih =>
    simp only [appendCredentials]
    split
    · rw [ih]
    · split
      · rw [ih]
      · rw [ih]

theorem fillCredentials_log (p : Page) (api_key : String) (creds : Reply (List Credential)) :
    (fillCredentials p api_key creds).log = p.log ++ [fetchAPI "/credentials" api_key] := by
  cases creds with
  | rejected s => rfl
  | resolved l => simp [fillCredentials, appendCredentials_log, Page.issue]

theorem appendClients_log (l : List ClientRecord) (p : Page) :
    (appendClients l p).log = p.log := by
  induction l generalizing p with
  | nil => rfl
  | cons c rest ih =>
    simp only [appendClients]
    split
    · rw [ih]
    · split
      · rw [ih]
      · rfl

theorem loadExternalClientsThen_log (p : Page) (clients : Reply (List ClientRecord)) :
    (loadExternalClientsThen p clients).log = p.log := by
  cases clients with
  | rejected s => rfl
  | resolved l => simp [loadExternalClientsThen, appendClients_log]

/-! ## Credential creation -/

/-- C5: whatever the credential inputs hold, `addCredential` with the tag `mega`
sends `POST /credentials` with a body whose keys are exactly `source`, `email`
and `password` (the tag and the values of the mega inputs), and with the tag
`pixeldrain` a body whose keys are exactly `source` and `api_key` (the tag and
the value of the pixeldrain input); it is the first request of the run and
the only one that is not a `GET`. -/
theorem addCredential_body (p : Page) (api_key : String) (post : Reply Unit)
    (errorBody : Reply (Option String)) (creds : Reply (List Credential)) :
    (∃ rest,
      (addCredential { p with builtinTag := some "mega" } api_key post errorBody
          creds).issuedSince p.log =
        sendAPI "POST" "/credentials" api_key
          (some [("source", JsVal.str "mega"), ("email", JsVal.str p.addMegaEmail),
            ("password", JsVal.str p.addMegaPassword)]) :: rest
      ∧ (∀ r ∈ rest, r.method = "GET")
      ∧ JsObject.keys [("source", JsVal.str "mega"), ("email", JsVal.str p.addMegaEmail),
            ("password", JsVal.str p.addMegaPassword)] = ["source", "email", "password"])
    ∧ (∃ rest,
      (addCredential { p with builtinTag := some "pixeldrain" } api_key post errorBody
          creds).issuedSince p.log =
        sendAPI "POST" "/credentials" api_key
          (some [("source", JsVal.str "pixeldrain"),
            ("api_key", JsVal.str p.addPixeldrainKey)]) :: rest
      ∧ (∀ r ∈ rest, r.method = "GET")
      ∧ JsObject.keys [("source", JsVal.str "pixeldrain"),
            ("api_key", JsVal.str p.addPixeldrainKey)] = ["source", "api_key"]) := by
  constructor
  · cases post with
    | resolved u =>
      refine ⟨[fetchAPI "/credentials" api_key], ?_, ?_, rfl⟩
      · simp [addCredential, Page.issuedSince, fillCredentials_log, Page.issue,
          addCredentialData, datasetVal]
      · intro r hr
        simp at hr
        subst hr
        rfl
    | rejected status =>
      refine ⟨[], ?_, ?_, rfl⟩
      · unfold addCredential
        by_cases h : status = some 400
        · cases errorBody <;>
            simp [h, Page.issuedSince, Page.issue, addCredentialData, datasetVal]
        · simp [h, Page.issuedSince, Page.issue, addCredentialData, datasetVal]
      · intro r hr
        simp at hr
  · cases post with
    | resolved u =>
      refine ⟨[fetchAPI "/credentials" api_key], ?_, ?_, rfl⟩
      · simp [addCredential, Page.issuedSince, fillCredentials_log, Page.issue,
          addCredentialData, datasetVal]
      · intro r hr
        simp at hr
        subst hr
        rfl
    | rejected status =>
      refine ⟨[], ?_, ?_, rfl⟩
      · unfold addCredential
        by_cases h : status = some 400
        · cases errorBody <;>
            simp [h, Page.issuedSince, Page.issue, addCredentialData, datasetVal]
        · simp [h, Page.issuedSince, Page.issue, addCredentialData, datasetVal]
      · intro r hr
        simp at hr


/-! ## Saving the metadata setting -/

theorem JsObject.get_append_cons (before after : JsObject) (k : String) (v : JsVal)
    (h : ∀ kv ∈ after, kv.1 ≠ k) : JsObject.get (before ++ (k, v) :: after) k = v := by
  unfold JsObject.get
  have hnone : after.reverse.find? (fun kv => kv.1 == k) = none := by
    rw [List.find?_eq_none]
    intro x hx
    simpa using h x (List.mem_reverse.1 hx)
  simp [List.find?_append, hnone, List.find?_cons]

theorem JsObject.get_cases (fields : JsObject) (k : String) :
    (JsObject.get fields k = JsVal.undefined ∧ ∀ kv ∈ fields, kv.1 ≠ k)
    ∨ ∃ before v after, fields = before ++ (k, v) :: after
        ∧ (∀ kv ∈ after, kv.1 ≠ k) ∧ JsObject.get fields k = v := by
  cases h : fields.reverse.find? (fun kv => kv.1 == k) with
  | none =>
    left
    constructor
    · simp [JsObject.get, h]
    · rw [List.find?_eq_none] at h
      intro kv hkv
      simpa using h kv (List.mem_reverse.2 hkv)
  | some kv =>
    right
    obtain ⟨hp, as, bs, hrev, has⟩ := List.find?_eq_some.1 h
    have hk : kv.1 = k := by simpa using hp
    have hfields : fields = bs.reverse ++ (k, kv.2) :: as.reverse := by
      have := congrArg List.reverse hrev
      simp only [List.reverse_reverse, List.reverse_append, List.reverse_cons,
        List.append_assoc, List.singleton_append] at this
      rw [this, ← hk]
    have hafter : ∀ x ∈ as.reverse, x.1 ≠ k := by
      intro x hx
      simpa using has x (List.mem_reverse.1 hx)
    exact ⟨bs.reverse, kv.2, as.reverse, hfields, hafter, by simp [JsObject.get, h]⟩

theorem JsObject.get_eq_null_iff (fields : JsObject) (k : String) :
    JsObject.get fields k = JsVal.null ↔
      ∃ before after, fields = before ++ (k, JsVal.null) :: after
        ∧ ∀ kv ∈ after, kv.1 ≠ k := by
  constructor
  · intro hnull
    rcases JsObject.get_cases fields k with ⟨hu, _⟩ | ⟨before, v, after, hf, ha, hv⟩
    · rw [hu] at hnull
      cases hnull
    · rw [hv] at hnull
      subst hnull
      exact ⟨before, after, hf, ha⟩
  · rintro ⟨before, after, hf, ha⟩
    rw [hf]
    exact JsObject.get_append_cons before after k JsVal.null ha

/-- C8: `saveSettings` sets the label to `Saving` before the request is
answered and sends `PUT /settings` with the single key `date_type` holding the
value of the date-type input; afterwards only the label differs, and it is
`Saved` exactly when the request resolved and its body parsed to an object
whose `error` is `null`, and `Failed` in every other outcome: a rejected
request, a body that does not parse, a body whose `error` is anything else
or missing, a body that is no object. -/
theorem saveSettings_label (p : SettingsPage) (api_key : String)
    (answer : Reply (Reply JsVal)) :
    (saveSettingsStart p api_key).saveButtonText = "Saving"
    ∧ (saveSettingsStart p api_key).log =
        p.log ++ [sendAPI "PUT" "/settings" api_key
          (some [("date_type", JsVal.str p.dateTypeInput)])]
    ∧ (saveSettings p api_key answer).log = (saveSettingsStart p api_key).log
    ∧ (saveSettings p api_key answer).dateTypeInput = p.dateTypeInput
    ∧ ((saveSettings p api_key answer).saveButtonText = "Saved" ↔
        ∃ before after,
          answer = Reply.resolved (Reply.resolved
            (JsVal.obj (before ++ ("error", JsVal.null) :: after)))
          ∧ ∀ kv ∈ after, kv.1 ≠ "error")
    ∧ ((saveSettings p api_key answer).saveButtonText = "Failed" ↔
        ¬ ∃ before after,
          answer = Reply.resolved (Reply.resolved
            (JsVal.obj (before ++ ("error", JsVal.null) :: after)))
          ∧ ∀ kv ∈ after, kv.1 ≠ "error")
    ∧ (saveSettings p api_key (Reply.resolved (Reply.resolved
        (JsVal.obj [("error", JsVal.null), ("result", JsVal.obj [])])))).saveButtonText
        = "Saved"
    ∧ (saveSettings p api_key (Reply.resolved (Reply.resolved
        (JsVal.obj [("error", JsVal.str "InvalidSettingValue"),
          ("result", JsVal.obj [])])))).saveButtonText = "Failed"
    ∧ (saveSettings p api_key (Reply.resolved (Reply.resolved
        (JsVal.obj [("result", JsVal.obj [])])))).saveButtonText = "Failed"
    ∧ (saveSettings p api_key (Reply.resolved (Reply.resolved
        JsVal.null))).saveButtonText = "Failed"
    ∧ (saveSettings p api_key (Reply.resolved (Reply.resolved
        (JsVal.str "ok")))).saveButtonText = "Failed"
    ∧ (saveSettings p api_key (Reply.resolved (Reply.rejected none))).saveButtonText
        = "Failed"
    ∧ (saveSettings p api_key (Reply.rejected (some 500))).saveButtonText = "Failed" := by
  have hlabel : (saveSettings p api_key answer).saveButtonText =
      match answer with
      | Reply.resolved (Reply.resolved (JsVal.obj fields)) =>
        match JsObject.get fields "error" with
        | JsVal.null => "Saved"
        | _ => "Failed"
      | _ => "Failed" := by
    unfold saveSettings
    cases answer with
    | rejected s => rfl
    | resolved inner =>
      cases inner with
      | rejected s => rfl
      | resolved json =>
        cases json with
        | obj fields =>
          simp only [JsVal.errorField]
          cases JsObject.get fields "error" <;> rfl
        | _ => rfl
  have hsaved : (saveSettings p api_key answer).saveButtonText = "Saved" ↔
      ∃ before after,
        answer = Reply.resolved (Reply.resolved
          (JsVal.obj (before ++ ("error", JsVal.null) :: after)))
        ∧ ∀ kv ∈ after, kv.1 ≠ "error" := by
    rw [hlabel]
    constructor
    · intro h
      cases answer with
      | rejected s => simp at h
      | resolved inner =>
        cases inner with
        | rejected s => simp at h
        | resolved json =>
          cases json with
          | obj fields =>
            simp only at h
            cases hg : JsObject.get fields "error" with
            | null =>
              obtain ⟨before, after, hf, ha⟩ := (JsObject.get_eq_null_iff fields "error").1 hg
              exact ⟨before, after, by rw [hf], ha⟩
            | _ => simp [hg] at h
          | _ => simp at h
    · rintro ⟨before, after, rfl, ha⟩
      simp only
      rw [JsObject.get_append_cons before after "error" JsVal.null ha]
  have hdich : (saveSettings p api_key answer).saveButtonText = "Saved"
      ∨ (saveSettings p api_key answer).saveButtonText = "Failed" := by
    rw [hlabel]
    cases answer with
    | rejected s => simp
    | resolved inner =>
      cases inner with
      | rejected s => simp
      | resolved json =>
        cases json with
        | obj fields =>
          simp only
          cases JsObject.get fields "error" <;> simp
        | _ => simp
  refine ⟨rfl, rfl, ?_, ?_, hsaved, ?_, rfl, rfl, rfl, rfl, rfl, rfl, rfl⟩
  · unfold saveSettings
    cases answer with
    | rejected s => rfl
    | resolved inner =>
      cases inner with
      | rejected s => rfl
      | resolved json =>
        simp only
        cases json.errorField with
        | none => rfl
        | some e => cases e <;> rfl
  · unfold saveSettings
    cases answer with
    | rejected s => rfl
    | resolved inner =>
      cases inner with
      | rejected s => rfl
      | resolved json =>
        simp only
        cases json.errorField with
        | none => rfl
        | some e => cases e <;> rfl
  · rw [← hsaved]
    rcases hdich with h | h
    · rw [h]
      simp
    · rw [h]
      simp

theorem saveSettings_label_witness :
    (saveSettings blankSettings "key" (Reply.resolved (Reply.resolved
      (JsVal.obj [("error", JsVal.null), ("result", JsVal.obj [])])))).saveButtonText = "Saved"
    ∧ ¬ (saveSettings blankSettings "key" (Reply.resolved (Reply.resolved
      (JsVal.obj [("error", JsVal.str "InvalidSettingValue"),
        ("result", JsVal.obj [])])))).saveButtonText = "Saved" :=
  ⟨(saveSettings_label blankSettings "key" _).2.2.2.2.1.2
      ⟨[], [("result", JsVal.obj [])], rfl, by simp⟩,
   fun h => by
    obtain ⟨before, after, heq, hafter⟩ :=
      (saveSettings_label blankSettings "key" _).2.2.2.2.1.1 h
    simp only [Reply.resolved.injEq, JsVal.obj.injEq] at heq
    cases before with
    | nil => simp at heq
    | cons kv rest =>
      simp only [List.cons_append, List.cons.injEq] at heq
      obtain ⟨_, hrest⟩ := heq
      cases rest with
      | nil =>
        simp only [List.nil_append, List.cons.injEq, Prod.mk.injEq] at hrest
        simp at hrest
      | cons kv2 rest2 =>
        simp only [List.cons_append, List.cons.injEq] at hrest
        have := hrest.2
        simp at this⟩


/-! ## Testing a client -/

theorem mem_classListAdd (classes : List String) (name c : String) :
    c ∈ classListAdd classes name ↔ c ∈ classes ∨ c = name := by
  unfold classListAdd
  split
  · rename_i h
    constructor
    · intro hc
      exact Or.inl hc
    · rintro (hc | rfl)
      · exact hc
      · simpa using h
  · simp

theorem mem_classListRemove (classes names : List String) (c : String) :
    c ∈ classListRemove classes names ↔ c ∈ classes ∧ c ∉ names := by
  simp [classListRemove]

/-- C6, amended: when `POST /externalclients/test` is answered in edit mode, the
promise of `testEditClient` resolves with `result.success`; on success the
button carries `show-success`, on failure it carries `show-fail` and the banner
is shown with the text of `result.description` (`undefined` when the answer
has none, nothing when it is `null`).  When nothing else has changed
the button and the banner while the request was in flight, then in addition
on success the button does not carry `show-fail` and the banner is hidden with
its text untouched, on failure the button does not carry `show-success`, and
every other class of the button is as it was before the test. -/
theorem testEditClient_outcome (p : Page) (api_key : String) (duringTest : Page → Page)
    (result : TestResult) (base_url : String)
    (h : p.editForm.valueOf "edit-baseurl-input" = some base_url) :
    (testEditClientAmid p api_key duringTest (Reply.resolved result)).2 = some result.success
    ∧ (result.success = true →
        "show-success" ∈
          (testEditClientAmid p api_key duringTest (Reply.resolved result)).1.testEditButton)
    ∧ (result.success = false →
        "show-fail" ∈
          (testEditClientAmid p api_key duringTest (Reply.resolved result)).1.testEditButton
        ∧ (testEditClientAmid p api_key duringTest
            (Reply.resolved result)).1.editError.hidden = false
        ∧ (testEditClientAmid p api_key duringTest
            (Reply.resolved result)).1.editError.innerText = result.shown
        ∧ (result.described = true → ∀ text, result.description = some text →
            (testEditClientAmid p api_key duringTest
              (Reply.resolved result)).1.editError.innerText = text))
    ∧ ((∀ q, (duringTest q).testEditButton = q.testEditButton
          ∧ (duringTest q).editError = q.editError) →
        (result.success = true →
          "show-fail" ∉
            (testEditClientAmid p api_key duringTest (Reply.resolved result)).1.testEditButton
          ∧ (testEditClientAmid p api_key duringTest
              (Reply.resolved result)).1.editError.hidden = true
          ∧ (testEditClientAmid p api_key duringTest
              (Reply.resolved result)).1.editError.innerText = p.editError.innerText)
        ∧ (result.success = false →
          "show-success" ∉
            (testEditClientAmid p api_key duringTest (Reply.resolved result)).1.testEditButton)
        ∧ (∀ c, c ≠ "show-success" → c ≠ "show-fail" →
          (c ∈ (testEditClientAmid p api_key duringTest
              (Reply.resolved result)).1.testEditButton ↔ c ∈ p.testEditButton))) := by
  cases hs : result.success with
  | true =>
    refine ⟨?_, ?_, ?_, ?_⟩
    · simp [testEditClientAmid, testEditData, h, hs]
    · intro _
      simp [testEditClientAmid, testEditData, h, hs, mem_classListAdd]
    · intro hf
      cases hf
    · intro hquiet
      refine ⟨?_, ?_, ?_⟩
      · intro _
        simp [testEditClientAmid, testEditData, h, hs, mem_classListAdd, mem_classListRemove,
          Page.meanwhile, (hquiet _).1, (hquiet _).2, Page.issue, Banner.hide]
      · intro hf
        cases hf
      · intro c h1 h2
        simp [testEditClientAmid, testEditData, h, hs, mem_classListAdd, mem_classListRemove,
          Page.meanwhile, (hquiet _).1, Page.issue, h1, h2]
  | false =>
    refine ⟨?_, ?_, ?_, ?_⟩
    · simp [testEditClientAmid, testEditData, h, hs]
    · intro hf
      cases hf
    · intro _
      simp [testEditClientAmid, testEditData, h, hs, mem_classListAdd, Banner.show,
        Banner.setText]
      intro hd text htext
      simp [TestResult.shown, hd, htext, textOf]
    · intro hquiet
      refine ⟨?_, ?_, ?_⟩
      · intro hf
        cases hf
      · intro _
        simp [testEditClientAmid, testEditData, h, hs, mem_classListAdd, mem_classListRemove,
          Page.meanwhile, (hquiet _).1, Page.issue]
      · intro c h1 h2
        simp [testEditClientAmid, testEditData, h, hs, mem_classListAdd, mem_classListRemove,
          Page.meanwhile, (hquiet _).1, Page.issue, h1, h2]

theorem testEditClient_outcome_witness :
    (testEditClientAmid blankPage "key" typeEditTitle
        (Reply.resolved { success := false, description := some "no route" })).2 = some false
    ∧ "show-success" ∉ (testEditClientAmid blankPage "key" typeEditTitle
        (Reply.resolved { success := false, description := some "no route" })).1.testEditButton :=
  ⟨(testEditClient_outcome blankPage "key" typeEditTitle
      { success := false, description := some "no route" } "" rfl).1,
   ((testEditClient_outcome blankPage "key" typeEditTitle
      { success := false, description := some "no route" } "" rfl).2.2.2
      (fun _ => ⟨rfl, rfl⟩)).2.1 rfl⟩

/-- C6 as stated fails: a second test is started and answered with a failure
while the first is in flight; when the first is then answered with success,
the button carries both indicators and the banner is visible. -/
theorem testEditClient_overlapping_tests :
    (testEditClientAmid blankPage "key" otherTestFails
        (Reply.resolved { success := true, description := none })).2 = some true
    ∧ (testEditClientAmid blankPage "key" otherTestFails
        (Reply.resolved { success := true, description := none })).1.testEditButton
      = ["show-fail", "show-success"]
    ∧ (testEditClientAmid blankPage "key" otherTestFails
        (Reply.resolved { success := true, description := none })).1.editError
      = { innerText := "no route", hidden := false } := by
  refine ⟨rfl, rfl, rfl⟩

/-- C7, on the code: in add mode a successful answer leaves the add banner
visible with the text of `result.description`, where edit mode leaves its
banner hidden for the same answer. -/
theorem testAddClient_success_shows_banner :
    (testAddClient blankPage "key"
        (Reply.resolved { success := true, description := some "ok" })).1.addError
      = { innerText := "ok", hidden := false }
    ∧ (testAddClient blankPage "key"
        (Reply.resolved { success := true, description := some "ok" })).1.testAddButton
      = ["show-success"]
    ∧ (testEditClient blankPage "key"
        (Reply.resolved { success := true, description := some "ok" })).1.editError
      = { innerText := "", hidden := true }
    ∧ (testEditClient blankPage "key"
        (Reply.resolved { success := true, description := some "ok" })).1.testEditButton
      = ["show-success"] := by
  refine ⟨rfl, rfl, rfl, rfl⟩


/-! ## A busy client -/

/-- C4: when the `PUT` of `saveEditClient` (after a successful test) or the
`DELETE` of `deleteClient` is rejected, the run issues no request after the
rejected one, so the client lists are not reloaded, and leaves the lists and
the window as they were; with status 400 the edit banner ends visible with the
fixed text `*Client is downloading`; with any other status the banner is the
one the run had when the request was issued (for `saveEditClient` the banner
as the test left it, for `deleteClient` the banner from before the run). -/
theorem busy_rejection (p : Page) (api_key : String) (status : Option Nat)
    (clients : Reply (List ClientRecord)) :
    (∀ (result : TestResult) (title base_url : String), result.success = true →
      p.editForm.valueOf "edit-title-input" = some title →
      p.editForm.valueOf "edit-baseurl-input" = some base_url →
      (saveEditClient p api_key (Reply.resolved result) (Reply.rejected status)
        clients).issuedSince p.log =
      [ sendAPI "POST" "/externalclients/test" api_key (testEditData p.editForm),
        sendAPI "PUT" ("/externalclients/" ++ datasetText p.editForm.dataset_id) api_key
          (saveEditData p.editForm) ]
    ∧ (saveEditClient p api_key (Reply.resolved result) (Reply.rejected status)
        clients).torrentList = p.torrentList
    ∧ (saveEditClient p api_key (Reply.resolved result) (Reply.rejected status)
        clients).dcppList = p.dcppList
    ∧ (saveEditClient p api_key (Reply.resolved result) (Reply.rejected status)
        clients).window = p.window
    ∧ (status = some 400 →
        (saveEditClient p api_key (Reply.resolved result) (Reply.rejected status)
          clients).editError = { innerText := "*Client is downloading", hidden := false })
    ∧ (status ≠ some 400 →
        (saveEditClient p api_key (Reply.resolved result) (Reply.rejected status)
          clients).editError =
        (testEditClient p api_key (Reply.resolved result)).1.editError))
    ∧ ((deleteClient p api_key (Reply.rejected status) clients).issuedSince p.log =
      [ sendAPI "DELETE" ("/externalclients/" ++ datasetText p.editForm.dataset_id) api_key
          none ]
    ∧ (deleteClient p api_key (Reply.rejected status) clients).torrentList = p.torrentList
    ∧ (deleteClient p api_key (Reply.rejected status) clients).dcppList = p.dcppList
    ∧ (deleteClient p api_key (Reply.rejected status) clients).window = p.window
    ∧ (status = some 400 →
        (deleteClient p api_key (Reply.rejected status) clients).editError =
          { innerText := "*Client is downloading", hidden := false })
    ∧ (status ≠ some 400 →
        (deleteClient p api_key (Reply.rejected status) clients).editError = p.editError)) := by
  constructor
  · intro result title base_url hs ht hb
    by_cases h4 : status = some 400
    · simp [saveEditClient, saveEditClientAmid, testEditClient, testEditClientAmid,
        Page.meanwhile, testEditData, saveEditData, ht, hb, hs, h4,
        Page.issue, Page.issuedSince, Banner.show, Banner.setText, Banner.hide]
    · simp [saveEditClient, saveEditClientAmid, testEditClient, testEditClientAmid,
        Page.meanwhile, testEditData, saveEditData, ht, hb, hs, h4,
        Page.issue, Page.issuedSince, Banner.show, Banner.setText, Banner.hide]
  · by_cases h4 : status = some 400
    · simp [deleteClient, h4, Page.issue, Page.issuedSince, Banner.show, Banner.setText]
    · simp [deleteClient, h4, Page.issue, Page.issuedSince, Banner.show, Banner.setText]

theorem busy_rejection_witness :
    (saveEditClient blankPage "key"
        (Reply.resolved { success := true, description := none }) (Reply.rejected (some 400))
        (Reply.resolved [])).editError
      = { innerText := "*Client is downloading", hidden := false } :=
  ((busy_rejection blankPage "key" (some 400) (Reply.resolved [])).1
    { success := true, description := none } "" "" rfl rfl rfl).2.2.2.2.1 rfl


/-! ## Test before save -/

/-- The form `saveEditClient` reads after a test that got an answer is the form
as it is then: the form of the start, after what happened meanwhile. -/
theorem testEditClientAmid_form (p : Page) (api_key : String) (duringTest : Page → Page)
    (test : Reply TestResult) (tested : JsObject)
    (hd : testEditData p.editForm = some tested) :
    ∃ q, q.editForm = p.editForm ∧ q.torrentList = p.torrentList
      ∧ q.dcppList = p.dcppList ∧ q.window = p.window
      ∧ (testEditClientAmid p api_key duringTest test).1.editForm = (duringTest q).editForm
      ∧ (testEditClientAmid p api_key duringTest test).1.torrentList
          = (duringTest q).torrentList
      ∧ (testEditClientAmid p api_key duringTest test).1.dcppList = (duringTest q).dcppList
      ∧ (testEditClientAmid p api_key duringTest test).1.window = (duringTest q).window := by
  refine ⟨({ p with
      editError := p.editError.hide,
      testEditButton := classListRemove p.testEditButton ["show-success", "show-fail"] }).issue
    (sendAPI "POST" "/externalclients/test" api_key (some tested)), rfl, rfl, rfl, rfl, ?_⟩
  cases test with
  | rejected s => simp [testEditClientAmid, hd, Page.meanwhile]
  | resolved result =>
    cases hs : result.success <;> simp [testEditClientAmid, hd, hs, Page.meanwhile]

theorem testAddClientAmid_form (p : Page) (api_key : String) (duringTest : Page → Page)
    (test : Reply TestResult) (tested : JsObject)
    (hd : testAddData p.addForm = some tested) :
    ∃ q, q.addForm = p.addForm ∧ q.torrentList = p.torrentList
      ∧ q.dcppList = p.dcppList ∧ q.window = p.window
      ∧ (testAddClientAmid p api_key duringTest test).1.addForm = (duringTest q).addForm
      ∧ (testAddClientAmid p api_key duringTest test).1.torrentList
          = (duringTest q).torrentList
      ∧ (testAddClientAmid p api_key duringTest test).1.dcppList = (duringTest q).dcppList
      ∧ (testAddClientAmid p api_key duringTest test).1.window = (duringTest q).window := by
  refine ⟨({ p with
      addError := p.addError.hide,
      testAddButton := classListRemove p.testAddButton ["show-success", "show-fail"] }).issue
    (sendAPI "POST" "/externalclients/test" api_key (some tested)), rfl, rfl, rfl, rfl, ?_⟩
  cases test with
  | rejected s => simp [testAddClientAmid, hd, Page.meanwhile]
  | resolved result =>
    cases hs : result.success <;> simp [testAddClientAmid, hd, hs, Page.meanwhile]

/-- The requests of one run of `saveEditClient`, in the order they are issued. -/
theorem saveEditClientAmid_issuedSince (p : Page) (api_key : String)
    (duringTest : Page → Page) (test : Reply TestResult) (duringSave : Page → Page)
    (put : Reply Unit) (duringReload : Page → Page) (clients : Reply (List ClientRecord)) :
    (saveEditClientAmid p api_key duringTest test duringSave put duringReload
        clients).issuedSince p.log =
      match testEditData p.editForm with
      | none => []
      | some tested =>
        sendAPI "POST" "/externalclients/test" api_key (some tested) ::
          match test with
          | Reply.rejected _ => []
          | Reply.resolved result =>
            if result.success then
              match saveEditData (testEditClientAmid p api_key duringTest test).1.editForm with
              | none => []
              | some persisted =>
                sendAPI "PUT"
                    ("/externalclients/" ++ datasetText
                      (testEditClientAmid p api_key duringTest test).1.editForm.dataset_id)
                    api_key (some persisted) ::
                  match put with
                  | Reply.resolved _ => [fetchAPI "/externalclients" api_key]
                  | Reply.rejected _ => []
            else [] := by
  cases hd : testEditData p.editForm with
  | none => simp [saveEditClientAmid, testEditClientAmid, hd, Page.issuedSince]
  | some tested =>
    cases test with
    | rejected s =>
      simp [saveEditClientAmid, testEditClientAmid, hd, Page.issuedSince, Page.issue,
        Page.meanwhile]
    | resolved result =>
      cases hs : result.success with
      | false =>
        simp [saveEditClientAmid, testEditClientAmid, hd, hs, Page.issuedSince, Page.issue,
          Page.meanwhile]
      | true =>
        have hrun : testEditClientAmid p api_key duringTest (Reply.resolved result) =
            ((testEditClientAmid p api_key duringTest (Reply.resolved result)).1, some true) := by
          simp [testEditClientAmid, hd, hs]
        have hlog : (testEditClientAmid p api_key duringTest (Reply.resolved result)).1.log =
            p.log ++ [sendAPI "POST" "/externalclients/test" api_key (some tested)] := by
          simp [testEditClientAmid, hd, hs, Page.issue, Page.meanwhile]
        unfold saveEditClientAmid
        rw [hrun]
        simp only [if_true]
        cases hp : saveEditData
            (testEditClientAmid p api_key duringTest (Reply.resolved result)).1.editForm with
        | none => simp [Page.issuedSince, hlog, hs]
        | some persisted =>
          cases put with
          | resolved u =>
            simp [Page.issuedSince, Page.issue, Page.meanwhile, hlog, hs,
              loadExternalClientsThen_log, closeWindow]
          | rejected status =>
            by_cases h4 : status = some 400 <;>
              simp [h4, Page.issuedSince, Page.issue, Page.meanwhile, hlog, hs]

/-- The requests of one run of `saveAddClient`, in the order they are issued. -/
theorem saveAddClientAmid_issuedSince (p : Page) (api_key : String)
    (duringTest : Page → Page) (test : Reply TestResult) (duringSave : Page → Page)
    (post : Reply Unit) (duringReload : Page → Page) (clients : Reply (List ClientRecord)) :
    (saveAddClientAmid p api_key duringTest test duringSave post duringReload
        clients).issuedSince p.log =
      match testAddData p.addForm with
      | none => []
      | some tested =>
        sendAPI "POST" "/externalclients/test" api_key (some tested) ::
          match test with
          | Reply.rejected _ => []
          | Reply.resolved result =>
            if result.success then
              match saveAddData (testAddClientAmid p api_key duringTest test).1.addForm with
              | none => []
              | some persisted =>
                sendAPI "POST" "/externalclients" api_key (some persisted) ::
                  match post with
                  | Reply.resolved _ => [fetchAPI "/externalclients" api_key]
                  | Reply.rejected _ => []
            else [] := by
  cases hd : testAddData p.addForm with
  | none => simp [saveAddClientAmid, testAddClientAmid, hd, Page.issuedSince]
  | some tested =>
    cases test with
    | rejected s =>
      simp [saveAddClientAmid, testAddClientAmid, hd, Page.issuedSince, Page.issue,
        Page.meanwhile]
    | resolved result =>
      cases hs : result.success with
      | false =>
        simp [saveAddClientAmid, testAddClientAmid, hd, hs, Page.issuedSince, Page.issue,
          Page.meanwhile]
      | true =>
        have hrun : testAddClientAmid p api_key duringTest (Reply.resolved result) =
            ((testAddClientAmid p api_key duringTest (Reply.resolved result)).1, some true) := by
          simp [testAddClientAmid, hd, hs]
        have hlog : (testAddClientAmid p api_key duringTest (Reply.resolved result)).1.log =
            p.log ++ [sendAPI "POST" "/externalclients/test" api_key (some tested)] := by
          simp [testAddClientAmid, hd, hs, Page.issue, Page.meanwhile]
        unfold saveAddClientAmid
        rw [hrun]
        simp only [if_true]
        cases hp : saveAddData
            (testAddClientAmid p api_key duringTest (Reply.resolved result)).1.addForm with
        | none => simp [Page.issuedSince, hlog, hs]
        | some persisted =>
          cases post with
          | resolved u =>
            simp [Page.issuedSince, Page.issue, Page.meanwhile, hlog, hs,
              loadExternalClientsThen_log, closeWindow]
          | rejected status =>
            simp [Page.issuedSince, Page.issue, Page.meanwhile, hlog, hs]

theorem testEditClient_form (p : Page) (api_key : String) (test : Reply TestResult) :
    (testEditClient p api_key test).1.editForm = p.editForm := by
  unfold testEditClient testEditClientAmid
  cases hd : testEditData p.editForm with
  | none => rfl
  | some tested =>
    cases test with
    | rejected s => rfl
    | resolved result => cases hs : result.success <;> simp [hs, Page.meanwhile, Page.issue]

theorem testAddClient_form (p : Page) (api_key : String) (test : Reply TestResult) :
    (testAddClient p api_key test).1.addForm = p.addForm := by
  unfold testAddClient testAddClientAmid
  cases hd : testAddData p.addForm with
  | none => rfl
  | some tested =>
    cases test with
    | rejected s => rfl
    | resolved result => cases hs : result.success <;> simp [hs, Page.meanwhile, Page.issue]

/-- The requests of one run of `saveEditClient` that nothing interferes with. -/
theorem saveEditClient_issuedSince (p : Page) (api_key : String) (test : Reply TestResult)
    (put : Reply Unit) (clients : Reply (List ClientRecord)) :
    (saveEditClient p api_key test put clients).issuedSince p.log =
      match testEditData p.editForm with
      | none => []
      | some tested =>
        sendAPI "POST" "/externalclients/test" api_key (some tested) ::
          match test with
          | Reply.rejected _ => []
          | Reply.resolved result =>
            if result.success then
              match saveEditData p.editForm with
              | none => []
              | some persisted =>
                sendAPI "PUT" ("/externalclients/" ++ datasetText p.editForm.dataset_id)
                    api_key (some persisted) ::
                  match put with
                  | Reply.resolved _ => [fetchAPI "/externalclients" api_key]
                  | Reply.rejected _ => []
            else [] := by
  have hf := testEditClient_form p api_key test
  unfold testEditClient at hf
  unfold saveEditClient
  rw [saveEditClientAmid_issuedSince, hf]

/-- The requests of one run of `saveAddClient` that nothing interferes with. -/
theorem saveAddClient_issuedSince (p : Page) (api_key : String) (test : Reply TestResult)
    (post : Reply Unit) (clients : Reply (List ClientRecord)) :
    (saveAddClient p api_key test post clients).issuedSince p.log =
      match testAddData p.addForm with
      | none => []
      | some tested =>
        sendAPI "POST" "/externalclients/test" api_key (some tested) ::
          match test with
          | Reply.rejected _ => []
          | Reply.resolved result =>
            if result.success then
              match saveAddData p.addForm with
              | none => []
              | some persisted =>
                sendAPI "POST" "/externalclients" api_key (some persisted) ::
                  match post with
                  | Reply.resolved _ => [fetchAPI "/externalclients" api_key]
                  | Reply.rejected _ => []
            else [] := by
  have hf := testAddClient_form p api_key test
  unfold testAddClient at hf
  unfold saveAddClient
  rw [saveAddClientAmid_issuedSince, hf]


/-- The fields `saveEditData` shares with `testEditData` hold the same values
when the inputs they are read from hold the same values in the two forms. -/
theorem saveEditData_agrees (form live : Form) (tested persisted : JsObject)
    (hsame : ∀ id ∈ ["edit-baseurl-input", "edit-username-input", "edit-password-input",
      "edit-token-input"], live.valueOf id = form.valueOf id)
    (ht : testEditData form = some tested) (hp : saveEditData live = some persisted) :
    persisted.get "base_url" = tested.get "base_url"
    ∧ persisted.get "username" = tested.get "username"
    ∧ persisted.get "password" = tested.get "password"
    ∧ persisted.get "api_token" = tested.get "api_token" := by
  have h1 := hsame "edit-baseurl-input" (by simp)
  have h2 := hsame "edit-username-input" (by simp)
  have h3 := hsame "edit-password-input" (by simp)
  have h4 := hsame "edit-token-input" (by simp)
  unfold testEditData at ht
  unfold saveEditData at hp
  rw [h1, h2, h3, h4] at hp
  cases hb : form.valueOf "edit-baseurl-input" with
  | none => simp [hb] at ht
  | some b =>
    cases htt : live.valueOf "edit-title-input" with
    | none => simp [htt] at hp
    | some t =>
      simp [hb] at ht
      simp [hb, htt] at hp
      subst ht
      subst hp
      simp [JsObject.get]

/-- The fields `saveAddData` shares with `testAddData` hold the same values when
the inputs they are read from, and `dataset.type`, are the same in the two
forms. -/
theorem saveAddData_agrees (form live : Form) (tested persisted : JsObject)
    (htype : live.dataset_type = form.dataset_type)
    (hsame : ∀ id ∈ ["add-baseurl-input", "add-username-input", "add-password-input",
      "add-token-input"], live.valueOf id = form.valueOf id)
    (ht : testAddData form = some tested) (hp : saveAddData live = some persisted) :
    persisted.get "client_type" = tested.get "client_type"
    ∧ persisted.get "base_url" = tested.get "base_url"
    ∧ persisted.get "username" = tested.get "username"
    ∧ persisted.get "password" = tested.get "password"
    ∧ persisted.get "api_token" = tested.get "api_token" := by
  have h1 := hsame "add-baseurl-input" (by simp)
  have h2 := hsame "add-username-input" (by simp)
  have h3 := hsame "add-password-input" (by simp)
  have h4 := hsame "add-token-input" (by simp)
  unfold testAddData at ht
  unfold saveAddData at hp
  rw [h1, h2, h3, h4, htype] at hp
  cases hb : form.valueOf "add-baseurl-input" with
  | none => simp [hb] at ht
  | some b =>
    cases htt : live.valueOf "add-title-input" with
    | none => simp [htt] at hp
    | some t =>
      simp [hb] at ht
      simp [hb, htt] at hp
      subst ht
      subst hp
      simp [JsObject.get]

/-- C2, amended: in a run of `saveEditClient` a `PUT` is issued only when the
test of the same run was answered with `success` true; the test request comes
first in the run and the `PUT` after it; and the body of the `PUT` agrees with
the tested body on `base_url`, `username`, `password` and `api_token` when the
inputs they are read from hold, at the answer of the test, the values they
held when the test was sent.  The same holds for the `POST /externalclients`
of `saveAddClient`, with `client_type` and `dataset.type` in addition.  When
the test is answered with `success` false, the run issues nothing but the
test request (no `PUT`, no `POST` of the record, no reload of the client
lists), and the lists and the window are what they were unless something else
changed them meanwhile. -/
theorem save_only_after_test (p : Page) (api_key : String) (duringTest : Page → Page)
    (test : Reply TestResult) (duringSave : Page → Page) (answer : Reply Unit)
    (duringReload : Page → Page) (clients : Reply (List ClientRecord)) :
    (∀ r ∈ (saveEditClientAmid p api_key duringTest test duringSave answer duringReload
          clients).issuedSince p.log,
      r.method = "PUT" →
      ∃ result tested persisted rest,
        test = Reply.resolved result ∧ result.success = true
        ∧ (saveEditClientAmid p api_key duringTest test duringSave answer duringReload
            clients).issuedSince p.log =
            sendAPI "POST" "/externalclients/test" api_key (some tested) :: rest
        ∧ r ∈ rest ∧ r.body = some persisted
        ∧ ((∀ q, ∀ id ∈ ["edit-baseurl-input", "edit-username-input", "edit-password-input",
              "edit-token-input"],
              (duringTest q).editForm.valueOf id = q.editForm.valueOf id) →
          persisted.get "base_url" = tested.get "base_url"
          ∧ persisted.get "username" = tested.get "username"
          ∧ persisted.get "password" = tested.get "password"
          ∧ persisted.get "api_token" = tested.get "api_token"))
    ∧ (∀ r ∈ (saveAddClientAmid p api_key duringTest test duringSave answer duringReload
          clients).issuedSince p.log,
      r.method = "POST" → r.path = "/externalclients" →
      ∃ result tested persisted rest,
        test = Reply.resolved result ∧ result.success = true
        ∧ (saveAddClientAmid p api_key duringTest test duringSave answer duringReload
            clients).issuedSince p.log =
            sendAPI "POST" "/externalclients/test" api_key (some tested) :: rest
        ∧ r ∈ rest ∧ r.body = some persisted
        ∧ ((∀ q, (duringTest q).addForm.dataset_type = q.addForm.dataset_type
              ∧ ∀ id ∈ ["add-baseurl-input", "add-username-input", "add-password-input",
                "add-token-input"],
                (duringTest q).addForm.valueOf id = q.addForm.valueOf id) →
          persisted.get "client_type" = tested.get "client_type"
          ∧ persisted.get "base_url" = tested.get "base_url"
          ∧ persisted.get "username" = tested.get "username"
          ∧ persisted.get "password" = tested.get "password"
          ∧ persisted.get "api_token" = tested.get "api_token"))
    ∧ (∀ result, test = Reply.resolved result → result.success = false →
        (∀ r ∈ (saveEditClientAmid p api_key duringTest test duringSave answer duringReload
            clients).issuedSince p.log,
          r.method = "POST" ∧ r.path = "/externalclients/test")
        ∧ (∀ r ∈ (saveAddClientAmid p api_key duringTest test duringSave answer duringReload
            clients).issuedSince p.log,
          r.method = "POST" ∧ r.path = "/externalclients/test")
        ∧ ((∀ q, (duringTest q).torrentList = q.torrentList
              ∧ (duringTest q).dcppList = q.dcppList ∧ (duringTest q).window = q.window) →
          (saveEditClientAmid p api_key duringTest test duringSave answer duringReload
              clients).torrentList = p.torrentList
          ∧ (saveEditClientAmid p api_key duringTest test duringSave answer duringReload
              clients).dcppList = p.dcppList
          ∧ (saveEditClientAmid p api_key duringTest test duringSave answer duringReload
              clients).window = p.window
          ∧ (saveAddClientAmid p api_key duringTest test duringSave answer duringReload
              clients).torrentList = p.torrentList
          ∧ (saveAddClientAmid p api_key duringTest test duringSave answer duringReload
              clients).dcppList = p.dcppList
          ∧ (saveAddClientAmid p api_key duringTest test duringSave answer duringReload
              clients).window = p.window)) := by
  refine ⟨?_, ?_, ?_⟩
  · intro r hr hm
    rw [saveEditClientAmid_issuedSince] at hr ⊢
    cases hd : testEditData p.editForm with
    | none => simp [hd] at hr
    | some tested =>
      cases test with
      | rejected s =>
        simp [hd] at hr
        subst hr
        simp [sendAPI] at hm
      | resolved result =>
        cases hs : result.success with
        | false =>
          simp [hd, hs] at hr
          subst hr
          simp [sendAPI] at hm
        | true =>
          cases hp : saveEditData
              (testEditClientAmid p api_key duringTest (Reply.resolved result)).1.editForm with
          | none =>
            simp [hd, hs, hp] at hr
            subst hr
            simp [sendAPI] at hm
          | some persisted =>
            simp only [hd, hs, hp, if_true] at hr ⊢
            rcases List.mem_cons.1 hr with hr | hr
            · subst hr
              simp [sendAPI] at hm
            · rcases List.mem_cons.1 hr with hr1 | hr1
              · refine ⟨result, tested, persisted, _, rfl, hs, rfl,
                  by rw [hr1]; exact List.mem_cons_self _ _, by rw [hr1]; rfl, ?_⟩
                intro hquiet
                obtain ⟨q, hq, _, _, _, hform, _⟩ :=
                  testEditClientAmid_form p api_key duringTest (Reply.resolved result) tested hd
                apply saveEditData_agrees p.editForm _ tested persisted _ hd hp
                intro id hid
                rw [hform, hquiet q id hid, hq]
              · cases answer with
                | resolved u =>
                  simp at hr1
                  subst hr1
                  simp [fetchAPI] at hm
                | rejected s => simp at hr1
  · intro r hr hm hpath
    rw [saveAddClientAmid_issuedSince] at hr ⊢
    cases hd : testAddData p.addForm with
    | none => simp [hd] at hr
    | some tested =>
      cases test with
      | rejected s =>
        simp [hd] at hr
        subst hr
        simp [sendAPI] at hpath
      | resolved result =>
        cases hs : result.success with
        | false =>
          simp [hd, hs] at hr
          subst hr
          simp [sendAPI] at hpath
        | true =>
          cases hp : saveAddData
              (testAddClientAmid p api_key duringTest (Reply.resolved result)).1.addForm with
          | none =>
            simp [hd, hs, hp] at hr
            subst hr
            simp [sendAPI] at hpath
          | some persisted =>
            simp only [hd, hs, hp, if_true] at hr ⊢
            rcases List.mem_cons.1 hr with hr | hr
            · subst hr
              simp [sendAPI] at hpath
            · rcases List.mem_cons.1 hr with hr1 | hr1
              · refine ⟨result, tested, persisted, _, rfl, hs, rfl,
                  by rw [hr1]; exact List.mem_cons_self _ _, by rw [hr1]; rfl, ?_⟩
                intro hquiet
                obtain ⟨q, hq, _, _, _, hform, _⟩ :=
                  testAddClientAmid_form p api_key duringTest (Reply.resolved result) tested hd
                apply saveAddData_agrees p.addForm _ tested persisted _ _ hd hp
                · rw [hform, (hquiet q).1, hq]
                · intro id hid
                  rw [hform, (hquiet q).2 id hid, hq]
              · cases answer with
                | resolved u =>
                  simp at hr1
                  subst hr1
                  simp [fetchAPI] at hm
                | rejected s => simp at hr1
  · intro result htest hs
    subst htest
    refine ⟨?_, ?_, ?_⟩
    · intro r hr
      rw [saveEditClientAmid_issuedSince] at hr
      cases hd : testEditData p.editForm with
      | none => simp [hd] at hr
      | some tested =>
        simp [hd, hs] at hr
        subst hr
        exact ⟨rfl, rfl⟩
    · intro r hr
      rw [saveAddClientAmid_issuedSince] at hr
      cases hd : testAddData p.addForm with
      | none => simp [hd] at hr
      | some tested =>
        simp [hd, hs] at hr
        subst hr
        exact ⟨rfl, rfl⟩
    · intro hquiet
      have hE : saveEditClientAmid p api_key duringTest (Reply.resolved result) duringSave
          answer duringReload clients =
          (testEditClientAmid p api_key duringTest (Reply.resolved result)).1 := by
        cases hd : testEditData p.editForm <;>
          simp [saveEditClientAmid, testEditClientAmid, hd, hs]
      have hA : saveAddClientAmid p api_key duringTest (Reply.resolved result) duringSave
          answer duringReload clients =
          (testAddClientAmid p api_key duringTest (Reply.resolved result)).1 := by
        cases hd : testAddData p.addForm <;>
          simp [saveAddClientAmid, testAddClientAmid, hd, hs]
      rw [hE, hA]
      refine ⟨?_, ?_, ?_, ?_, ?_, ?_⟩
      · cases hd : testEditData p.editForm with
        | none => simp [testEditClientAmid, hd]
        | some tested =>
          obtain ⟨q, _, h1, _, _, _, h1', _, _⟩ :=
            testEditClientAmid_form p api_key duringTest (Reply.resolved result) tested hd
          rw [h1', (hquiet q).1, h1]
      · cases hd : testEditData p.editForm with
        | none => simp [testEditClientAmid, hd]
        | some tested =>
          obtain ⟨q, _, _, h2, _, _, _, h2', _⟩ :=
            testEditClientAmid_form p api_key duringTest (Reply.resolved result) tested hd
          rw [h2', (hquiet q).2.1, h2]
      · cases hd : testEditData p.editForm with
        | none => simp [testEditClientAmid, hd]
        | some tested =>
          obtain ⟨q, _, _, _, h3, _, _, _, h3'⟩ :=
            testEditClientAmid_form p api_key duringTest (Reply.resolved result) tested hd
          rw [h3', (hquiet q).2.2, h3]
      · cases hd : testAddData p.addForm with
        | none => simp [testAddClientAmid, hd]
        | some tested =>
          obtain ⟨q, _, h1, _, _, _, h1', _, _⟩ :=
            testAddClientAmid_form p api_key duringTest (Reply.resolved result) tested hd
          rw [h1', (hquiet q).1, h1]
      · cases hd : testAddData p.addForm with
        | none => simp [testAddClientAmid, hd]
        | some tested =>
          obtain ⟨q, _, _, h2, _, _, _, h2', _⟩ :=
            testAddClientAmid_form p api_key duringTest (Reply.resolved result) tested hd
          rw [h2', (hquiet q).2.1, h2]
      · cases hd : testAddData p.addForm with
        | none => simp [testAddClientAmid, hd]
        | some tested =>
          obtain ⟨q, _, _, _, h3, _, _, _, h3'⟩ :=
            testAddClientAmid_form p api_key duringTest (Reply.resolved result) tested hd
          rw [h3', (hquiet q).2.2, h3]


theorem save_only_after_test_witness :
    ∃ result tested persisted rest,
      (Reply.resolved { success := true, description := none } : Reply TestResult)
        = Reply.resolved result
      ∧ result.success = true
      ∧ (saveEditClientAmid exampleEditOpened "key" typeAddBaseUrl
          (Reply.resolved { success := true, description := none }) (fun q => q)
          (Reply.resolved ()) (fun q => q) (Reply.resolved [])).issuedSince
            exampleEditOpened.log =
          sendAPI "POST" "/externalclients/test" "key" (some tested) :: rest
      ∧ sendAPI "PUT" "/externalclients/7" "key"
          (some [("title", JsVal.str "Seedbox"), ("base_url", JsVal.str "http://box:8080"),
            ("username", JsVal.str "admin"), ("password", JsVal.null),
            ("api_token", JsVal.null)]) ∈ rest
      ∧ (sendAPI "PUT" "/externalclients/7" "key"
          (some [("title", JsVal.str "Seedbox"), ("base_url", JsVal.str "http://box:8080"),
            ("username", JsVal.str "admin"), ("password", JsVal.null),
            ("api_token", JsVal.null)])).body = some persisted
      ∧ ((∀ q, ∀ id ∈ ["edit-baseurl-input", "edit-username-input", "edit-password-input",
            "edit-token-input"],
            (typeAddBaseUrl q).editForm.valueOf id = q.editForm.valueOf id) →
        persisted.get "base_url" = tested.get "base_url"
        ∧ persisted.get "username" = tested.get "username"
        ∧ persisted.get "password" = tested.get "password"
        ∧ persisted.get "api_token" = tested.get "api_token") :=
  (save_only_after_test exampleEditOpened "key" typeAddBaseUrl
    (Reply.resolved { success := true, description := none }) (fun q => q)
    (Reply.resolved ()) (fun q => q) (Reply.resolved [])).1
    (sendAPI "PUT" "/externalclients/7" "key"
      (some [("title", JsVal.str "Seedbox"), ("base_url", JsVal.str "http://box:8080"),
        ("username", JsVal.str "admin"), ("password", JsVal.null),
        ("api_token", JsVal.null)]))
    (List.mem_cons_of_mem _ (List.mem_cons_self _ _)) rfl

/-- C2 as stated fails: the user changes the base-url input while the test is in
flight; the test was sent with the old address, and the `PUT` that follows its
success carries the new one. -/
theorem save_after_edit_in_flight :
    (saveEditClientAmid exampleEditOpened "key" typeEditBaseUrl
        (Reply.resolved { success := true, description := none }) (fun q => q)
        (Reply.resolved ()) (fun q => q) (Reply.resolved [])).issuedSince
          exampleEditOpened.log =
      [ sendAPI "POST" "/externalclients/test" "key"
          (some [("client_type", JsVal.str "qBittorrent"),
            ("base_url", JsVal.str "http://box:8080"), ("username", JsVal.str "admin"),
            ("password", JsVal.null), ("api_token", JsVal.null)]),
        sendAPI "PUT" "/externalclients/7" "key"
          (some [("title", JsVal.str "Seedbox"), ("base_url", JsVal.str "http://other:9090"),
            ("username", JsVal.str "admin"), ("password", JsVal.null),
            ("api_token", JsVal.null)]),
        fetchAPI "/externalclients" "key" ]
    ∧ (saveAddClientAmid exampleAddFilled "key" typeAddBaseUrl
        (Reply.resolved { success := true, description := none }) (fun q => q)
        (Reply.resolved ()) (fun q => q) (Reply.resolved [])).issuedSince
          exampleAddFilled.log =
      [ sendAPI "POST" "/externalclients/test" "key"
          (some [("client_type", JsVal.str "qBittorrent"),
            ("base_url", JsVal.str "http://box:8080"), ("username", JsVal.str "admin"),
            ("password", JsVal.str "hunter2"), ("api_token", JsVal.null)]),
        sendAPI "POST" "/externalclients" "key"
          (some [("client_type", JsVal.str "qBittorrent"), ("title", JsVal.str "Seedbox"),
            ("base_url", JsVal.str "http://other:9090"), ("username", JsVal.str "admin"),
            ("password", JsVal.str "hunter2"), ("api_token", JsVal.null)]),
        fetchAPI "/externalclients" "key" ] := by
  constructor <;> rfl


/-! ## The record that is saved -/

/-- C9: when the test succeeds, `saveAddClient` issues `POST /externalclients`
right after the test request, with a body whose keys are exactly `client_type`,
`title`, `base_url`, `username`, `password` and `api_token`: `client_type` is
`dataset.type` of the form (which `loadAddClient` sets to the type the form is
opened for), `title` and `base_url` are the values of their inputs, and each of
the other three is the value of its input when the input is in the form and
not empty, and `null` when the input is absent or empty. -/
theorem saveAddClient_body (p : Page) (api_key : String) (result : TestResult)
    (post : Reply Unit) (clients : Reply (List ClientRecord)) (title base_url : String)
    (p0 : Page) (client_type : String) (options : Reply ClientOptions)
    (hs : result.success = true)
    (ht : p.addForm.valueOf "add-title-input" = some title)
    (hb : p.addForm.valueOf "add-baseurl-input" = some base_url) :
    (loadAddClient p0 api_key client_type options).page.addForm.dataset_type = some client_type
    ∧ ∃ tested body rest,
      (saveAddClient p api_key (Reply.resolved result) post clients).issuedSince p.log =
        sendAPI "POST" "/externalclients/test" api_key (some tested) ::
          sendAPI "POST" "/externalclients" api_key (some body) :: rest
      ∧ (∀ r ∈ rest, r.method = "GET")
      ∧ body.keys = ["client_type", "title", "base_url", "username", "password", "api_token"]
      ∧ (∀ ct, p.addForm.dataset_type = some ct → body.get "client_type" = JsVal.str ct)
      ∧ body.get "title" = JsVal.str title
      ∧ body.get "base_url" = JsVal.str base_url
      ∧ (∀ v, p.addForm.valueOf "add-username-input" = some v → v ≠ "" →
          body.get "username" = JsVal.str v)
      ∧ (p.addForm.valueOf "add-username-input" = some "" → body.get "username" = JsVal.null)
      ∧ (p.addForm.valueOf "add-username-input" = none → body.get "username" = JsVal.null)
      ∧ (∀ v, p.addForm.valueOf "add-password-input" = some v → v ≠ "" →
          body.get "password" = JsVal.str v)
      ∧ (p.addForm.valueOf "add-password-input" = some "" → body.get "password" = JsVal.null)
      ∧ (p.addForm.valueOf "add-password-input" = none → body.get "password" = JsVal.null)
      ∧ (∀ v, p.addForm.valueOf "add-token-input" = some v → v ≠ "" →
          body.get "api_token" = JsVal.str v)
      ∧ (p.addForm.valueOf "add-token-input" = some "" → body.get "api_token" = JsVal.null)
      ∧ (p.addForm.valueOf "add-token-input" = none → body.get "api_token" = JsVal.null) := by
  constructor
  · unfold loadAddClient loadAddClientAmid
    cases options with
    | rejected s => rfl
    | resolved opts =>
      simp only
      cases opts.get client_type <;> rfl
  · have hd : testAddData p.addForm = some
        [ ("client_type", datasetVal p.addForm.dataset_type),
          ("base_url", JsVal.str base_url),
          ("username", valueOrNull (p.addForm.valueOf "add-username-input")),
          ("password", valueOrNull (p.addForm.valueOf "add-password-input")),
          ("api_token", valueOrNull (p.addForm.valueOf "add-token-input")) ] := by
      simp [testAddData, hb]
    have hp : saveAddData p.addForm = some
        [ ("client_type", datasetVal p.addForm.dataset_type),
          ("title", JsVal.str title),
          ("base_url", JsVal.str base_url),
          ("username", valueOrNull (p.addForm.valueOf "add-username-input")),
          ("password", valueOrNull (p.addForm.valueOf "add-password-input")),
          ("api_token", valueOrNull (p.addForm.valueOf "add-token-input")) ] := by
      simp [saveAddData, hb, ht]
    refine ⟨[ ("client_type", datasetVal p.addForm.dataset_type),
          ("base_url", JsVal.str base_url),
          ("username", valueOrNull (p.addForm.valueOf "add-username-input")),
          ("password", valueOrNull (p.addForm.valueOf "add-password-input")),
          ("api_token", valueOrNull (p.addForm.valueOf "add-token-input")) ],
        [ ("client_type", datasetVal p.addForm.dataset_type),
          ("title", JsVal.str title),
          ("base_url", JsVal.str base_url),
          ("username", valueOrNull (p.addForm.valueOf "add-username-input")),
          ("password", valueOrNull (p.addForm.valueOf "add-password-input")),
          ("api_token", valueOrNull (p.addForm.valueOf "add-token-input")) ],
        (match post with
        | Reply.resolved _ => [fetchAPI "/externalclients" api_key]
        | Reply.rejected _ => []), ?_, ?_, rfl, ?_, ?_, ?_, ?_, ?_, ?_, ?_, ?_, ?_, ?_, ?_, ?_⟩
    · rw [saveAddClient_issuedSince, hd]
      simp only [hs, hp, if_true]
    · intro r hr
      cases post with
      | resolved u =>
        simp at hr
        subst hr
        rfl
      | rejected s => simp at hr
    · intro ct hct
      simp [JsObject.get, hct, datasetVal]
    · simp [JsObject.get]
    · simp [JsObject.get]
    · intro v hv hne
      simp [JsObject.get, hv, valueOrNull, hne]
    · intro hv
      simp [JsObject.get, hv, valueOrNull]
    · intro hv
      simp [JsObject.get, hv, valueOrNull]
    · intro v hv hne
      simp [JsObject.get, hv, valueOrNull, hne]
    · intro hv
      simp [JsObject.get, hv, valueOrNull]
    · intro hv
      simp [JsObject.get, hv, valueOrNull]
    · intro v hv hne
      simp [JsObject.get, hv, valueOrNull, hne]
    · intro hv
      simp [JsObject.get, hv, valueOrNull]
    · intro hv
      simp [JsObject.get, hv, valueOrNull]

theorem saveAddClient_body_witness :
    (saveAddClient exampleAddFilled "key"
        (Reply.resolved { success := true, description := none }) (Reply.resolved ())
        (Reply.resolved [])).issuedSince exampleAddFilled.log =
      [ sendAPI "POST" "/externalclients/test" "key"
          (some [("client_type", JsVal.str "qBittorrent"),
            ("base_url", JsVal.str "http://box:8080"), ("username", JsVal.str "admin"),
            ("password", JsVal.str "hunter2"), ("api_token", JsVal.null)]),
        sendAPI "POST" "/externalclients" "key"
          (some [("client_type", JsVal.str "qBittorrent"), ("title", JsVal.str "Seedbox"),
            ("base_url", JsVal.str "http://box:8080"), ("username", JsVal.str "admin"),
            ("password", JsVal.str "hunter2"), ("api_token", JsVal.null)]),
        fetchAPI "/externalclients" "key" ]
    ∧ (loadAddClient blankPage "key" "qBittorrent"
        (Reply.resolved exampleOptions)).page.addForm.dataset_type = some "qBittorrent" :=
  ⟨rfl,
   (saveAddClient_body exampleAddFilled "key" { success := true, description := none }
      (Reply.resolved ()) (Reply.resolved []) "Seedbox" "http://box:8080" blankPage
      "qBittorrent" (Reply.resolved exampleOptions) rfl rfl rfl).1⟩


/-! ## Lemmas on selectors -/

theorem valueOf_eq_rowsValueOf (f : Form) (id : String) :
    f.valueOf id = rowsValueOf f.rows id := rfl

theorem valueOf_eq_rowsFind (f : Form) (id : String) :
    f.valueOf id = (rowsFind f.rows id).map Input.value := rfl

theorem typeOf_eq_rowsFind (f : Form) (id : String) :
    f.typeOf id = (rowsFind f.rows id).map Input.type := rfl

theorem rowsValueOf_eq_rowsFind (rows : List Row) (id : String) :
    rowsValueOf rows id = (rowsFind rows id).map Input.value := rfl

theorem rowsFind_cons (r : Row) (rest : List Row) (id : String) :
    rowsFind (r :: rest) id =
      (r.inputs.find? (fun i => i.id == id)).or (rowsFind rest id) := by
  unfold rowsFind
  simp only [List.map_cons, List.flatten_cons, List.find?_append]

theorem rowsFind_append (a b : List Row) (id : String) :
    rowsFind (a ++ b) id = (rowsFind a id).or (rowsFind b id) := by
  induction a with
  | nil => rfl
  | cons r rest ih =>
    rw [List.cons_append, rowsFind_cons, rowsFind_cons, ih]
    cases r.inputs.find? (fun i => i.id == id) <;> rfl

theorem rowsValueOf_cons (r : Row) (rest : List Row) (id : String) :
    rowsValueOf (r :: rest) id =
      ((r.inputs.find? (fun i => i.id == id)).map Input.value).or (rowsValueOf rest id) := by
  rw [rowsValueOf_eq_rowsFind, rowsValueOf_eq_rowsFind, rowsFind_cons]
  cases r.inputs.find? (fun i => i.id == id) <;> rfl

theorem rowsValueOf_append (a b : List Row) (id : String) :
    rowsValueOf (a ++ b) id = (rowsValueOf a id).or (rowsValueOf b id) := by
  rw [rowsValueOf_eq_rowsFind, rowsValueOf_eq_rowsFind, rowsValueOf_eq_rowsFind,
    rowsFind_append]
  cases rowsFind a id <;> rfl

theorem setFirstInput_find_none (id v : String) (l : List Input)
    (h : setFirstInput id v l = none) : l.find? (fun i => i.id == id) = none := by
  induction l with
  | nil => rfl
  | cons i rest ih =>
    by_cases hi : i.id = id
    · simp [setFirstInput, hi] at h
    · have hb : (i.id == id) = false := by simpa using hi
      simp only [setFirstInput, hi, if_false, Option.map_eq_none'] at h
      rw [List.find?_cons, hb]
      exact ih h

theorem setFirstInput_same (id v : String) (l l' : List Input)
    (h : setFirstInput id v l = some l') :
    ∃ i, l.find? (fun i => i.id == id) = some i
      ∧ l'.find? (fun i => i.id == id) = some (i.setValue v) := by
  induction l generalizing l' with
  | nil => simp [setFirstInput] at h
  | cons i rest ih =>
    by_cases hi : i.id = id
    · simp only [setFirstInput, hi, if_true, Option.some.injEq] at h
      subst h
      refine ⟨i, ?_, ?_⟩
      · simp [List.find?_cons, hi]
      · simp [List.find?_cons, hi, Input.setValue]
    · have hb : (i.id == id) = false := by simpa using hi
      simp only [setFirstInput, hi, if_false, Option.map_eq_some'] at h
      obtain ⟨rest', hr, rfl⟩ := h
      obtain ⟨j, hj1, hj2⟩ := ih rest' hr
      refine ⟨j, ?_, ?_⟩
      · rw [List.find?_cons, hb]
        exact hj1
      · rw [List.find?_cons, hb]
        exact hj2

theorem setFirstInput_other (id v id' : String) (hne : id' ≠ id) (l l' : List Input)
    (h : setFirstInput id v l = some l') :
    l'.find? (fun i => i.id == id') = l.find? (fun i => i.id == id') := by
  induction l generalizing l' with
  | nil => simp [setFirstInput] at h
  | cons i rest ih =>
    by_cases hi : i.id = id
    · simp only [setFirstInput, hi, if_true, Option.some.injEq] at h
      subst h
      have hb : (id == id') = false := by simpa using (Ne.symm hne)
      simp [List.find?_cons, hi, hb, Input.setValue]
    · simp only [setFirstInput, hi, if_false, Option.map_eq_some'] at h
      obtain ⟨rest', hr, rfl⟩ := h
      rw [List.find?_cons, List.find?_cons, ih rest' hr]

theorem setFirstInput_ids (id v : String) (l l' : List Input)
    (h : setFirstInput id v l = some l') : l'.map Input.id = l.map Input.id := by
  induction l generalizing l' with
  | nil => simp [setFirstInput] at h
  | cons i rest ih =>
    by_cases hi : i.id = id
    · simp only [setFirstInput, hi, if_true, Option.some.injEq] at h
      subst h
      simp only [List.map_cons, Input.setValue]
    · simp only [setFirstInput, hi, if_false, Option.map_eq_some'] at h
      obtain ⟨rest', hr, rfl⟩ := h
      simp [ih rest' hr]

theorem setFirstValue_find_same (id v : String) (rows rows' : List Row)
    (h : setFirstValue id v rows = some rows') :
    ∃ i, rowsFind rows id = some i ∧ rowsFind rows' id = some (i.setValue v) := by
  induction rows generalizing rows' with
  | nil => simp [setFirstValue] at h
  | cons r rest ih =>
    unfold setFirstValue at h
    cases hr : setFirstInput id v r.inputs with
    | some inputs' =>
      simp only [hr, Option.some.injEq] at h
      subst h
      obtain ⟨i, hi1, hi2⟩ := setFirstInput_same id v r.inputs inputs' hr
      refine ⟨i, ?_, ?_⟩
      · rw [rowsFind_cons, hi1]
        rfl
      · rw [rowsFind_cons]
        simp only
        rw [hi2]
        rfl
    | none =>
      simp only [hr, Option.map_eq_some'] at h
      obtain ⟨rest', hrest, rfl⟩ := h
      obtain ⟨i, hi1, hi2⟩ := ih rest' hrest
      refine ⟨i, ?_, ?_⟩
      · rw [rowsFind_cons, setFirstInput_find_none id v r.inputs hr]
        exact hi1
      · rw [rowsFind_cons, setFirstInput_find_none id v r.inputs hr]
        exact hi2

theorem setFirstValue_find_other (id v id' : String) (hne : id' ≠ id)
    (rows rows' : List Row) (h : setFirstValue id v rows = some rows') :
    rowsFind rows' id' = rowsFind rows id' := by
  induction rows generalizing rows' with
  | nil => simp [setFirstValue] at h
  | cons r rest ih =>
    unfold setFirstValue at h
    cases hr : setFirstInput id v r.inputs with
    | some inputs' =>
      simp only [hr, Option.some.injEq] at h
      subst h
      rw [rowsFind_cons, rowsFind_cons]
      simp only
      rw [setFirstInput_other id v id' hne r.inputs inputs' hr]
    | none =>
      simp only [hr, Option.map_eq_some'] at h
      obtain ⟨rest', hrest, rfl⟩ := h
      rw [rowsFind_cons, rowsFind_cons, ih rest' hrest]

theorem setFirstValue_other (id v id' : String) (hne : id' ≠ id) (rows rows' : List Row)
    (h : setFirstValue id v rows = some rows') : rowsValueOf rows' id' = rowsValueOf rows id' := by
  rw [rowsValueOf_eq_rowsFind, rowsValueOf_eq_rowsFind,
    setFirstValue_find_other id v id' hne rows rows' h]

theorem setFirstValue_ids (id v : String) (rows rows' : List Row)
    (h : setFirstValue id v rows = some rows') : rows'.map Row.ids = rows.map Row.ids := by
  induction rows generalizing rows' with
  | nil => simp [setFirstValue] at h
  | cons r rest ih =>
    unfold setFirstValue at h
    cases hr : setFirstInput id v r.inputs with
    | some inputs' =>
      simp only [hr, Option.some.injEq] at h
      subst h
      simp [Row.ids, setFirstInput_ids id v r.inputs inputs' hr]
    | none =>
      simp only [hr, Option.map_eq_some'] at h
      obtain ⟨rest', hrest, rfl⟩ := h
      simp [ih rest' hrest]

theorem setFirstValue_none (id v : String) (rows : List Row)
    (h : setFirstValue id v rows = none) : rowsValueOf rows id = none := by
  induction rows with
  | nil => rfl
  | cons r rest ih =>
    unfold setFirstValue at h
    cases hr : setFirstInput id v r.inputs with
    | some inputs' => simp [hr] at h
    | none =>
      simp only [hr, Option.map_eq_none'] at h
      rw [rowsValueOf_cons, setFirstInput_find_none id v r.inputs hr, ih h]
      rfl

theorem rowsValueOf_removeRowsWithout (rows : List Row) (ids : List String) (id : String)
    (hid : id ∈ ids) : rowsValueOf (removeRowsWithout rows ids) id = rowsValueOf rows id := by
  induction rows with
  | nil => rfl
  | cons r rest ih =>
    unfold removeRowsWithout at ih ⊢
    by_cases hr : r.hasInput ids = true
    · simp only [List.filter_cons, hr, if_true]
      rw [rowsValueOf_cons, rowsValueOf_cons, ih]
    · have hf : r.hasInput ids = false := by simpa using hr
      simp only [List.filter_cons, hf, Bool.false_eq_true, if_false]
      rw [rowsValueOf_cons, ih]
      have hnone : r.inputs.find? (fun i => i.id == id) = none := by
        rw [List.find?_eq_none]
        intro x hx hxid
        apply hr
        unfold Row.hasInput
        rw [List.any_eq_true]
        refine ⟨x, hx, ?_⟩
        have : x.id = id := by simpa using hxid
        simpa [this] using hid
      rw [hnone]
      rfl

theorem orEmpty_some (s : String) : orEmpty (some s) = s := by
  unfold orEmpty
  by_cases h : s = ""
  · simp [h]
  · simp [h]

theorem stripNewlines_of_no_break (s : String)
    (h : ∀ c ∈ s.data, isLineBreak c = false) : stripNewlines s = s := by
  unfold stripNewlines
  have : s.data.filter (fun c => !isLineBreak c) = s.data := by
    rw [List.filter_eq_self]
    intro c hc
    simp [h c hc]
  rw [this]

theorem sanitizeValue_of_no_break (ty : InputType) (s : String)
    (hty : isTextKind ty = true) (h : ∀ c ∈ s.data, isLineBreak c = false) :
    sanitizeValue ty s = s := by
  cases ty <;> simp [isTextKind] at hty <;>
    simp [sanitizeValue, stripNewlines_of_no_break s h]


/-! ## Opening a form -/

theorem hasInput_iff (r : Row) (ids : List String) :
    r.hasInput ids = true ↔ ∃ i ∈ r.ids, i ∈ ids := by
  simp [Row.hasInput, Row.ids]

theorem hasInput_false_iff (r : Row) (ids : List String) :
    r.hasInput ids = false ↔ ∀ i ∈ r.ids, i ∉ ids := by
  rw [← Bool.not_eq_true, hasInput_iff]
  simp

theorem hasInput_congr (r s : Row) (ids : List String) (h : r.ids = s.ids) :
    r.hasInput ids = s.hasInput ids := by
  cases hs : s.hasInput ids with
  | true =>
    rw [hasInput_iff] at hs ⊢
    rw [h]
    exact hs
  | false =>
    rw [hasInput_false_iff] at hs ⊢
    rw [h]
    exact hs

theorem rowsValueOf_eq_none (rows : List Row) (id : String)
    (h : ∀ r ∈ rows, id ∉ r.ids) : rowsValueOf rows id = none := by
  induction rows with
  | nil => rfl
  | cons r rest ih =>
    rw [rowsValueOf_cons, ih (fun s hs => h s (List.mem_cons_of_mem _ hs))]
    have hnone : r.inputs.find? (fun i => i.id == id) = none := by
      rw [List.find?_eq_none]
      intro x hx hxid
      apply h r (List.mem_cons_self _ _)
      have : x.id = id := by simpa using hxid
      rw [← this]
      exact List.mem_map.2 ⟨x, hx, rfl⟩
    rw [hnone]
    rfl

theorem rowsValueOf_none_imp (rows : List Row) (id : String)
    (h : rowsValueOf rows id = none) : ∀ r ∈ rows, id ∉ r.ids := by
  induction rows with
  | nil =>
    intro r hr
    cases hr
  | cons r rest ih =>
    rw [rowsValueOf_cons] at h
    cases hf : r.inputs.find? (fun i => i.id == id) with
    | some x => simp [hf] at h
    | none =>
      rw [hf] at h
      have hrest : rowsValueOf rest id = none := by simpa using h
      intro s hs
      rcases List.mem_cons.1 hs with rfl | hs
      · intro hmem
        obtain ⟨x, hx, hxid⟩ := List.mem_map.1 hmem
        rw [List.find?_eq_none] at hf
        exact hf x hx (by simpa using hxid)
      · exact ih hrest s hs

theorem mem_of_map_ids_eq (a b : List Row) (h : a.map Row.ids = b.map Row.ids) (r : Row)
    (hr : r ∈ a) : ∃ s ∈ b, s.ids = r.ids := by
  have : r.ids ∈ b.map Row.ids := by
    rw [← h]
    exact List.mem_map.2 ⟨r, hr, rfl⟩
  obtain ⟨s, hs, hsr⟩ := List.mem_map.1 this
  exact ⟨s, hs, hsr⟩

/-- Whether a form has an input with an id depends on the ids of its rows only. -/
theorem rowsValueOf_some_of_ids (a b : List Row) (h : a.map Row.ids = b.map Row.ids)
    (id v : String) (hv : rowsValueOf b id = some v) : ∃ w, rowsValueOf a id = some w := by
  cases ha : rowsValueOf a id with
  | some w => exact ⟨w, rfl⟩
  | none =>
    have hb : rowsValueOf b id = none := by
      apply rowsValueOf_eq_none
      intro r hr hmem
      obtain ⟨s, hs, hsr⟩ := mem_of_map_ids_eq b a h.symm r hr
      exact rowsValueOf_none_imp a id ha s hs (by rw [hsr]; exact hmem)
    rw [hb] at hv
    cases hv

theorem appendEditInputs_eq (tokens : List String) (result : ClientRecord) (rows : List Row) :
    appendEditInputs tokens result rows = rows ++ appendEditInputs tokens result [] := by
  unfold appendEditInputs
  by_cases h1 : "username" ∈ tokens <;>
    by_cases h2 : "password" ∈ tokens <;>
      by_cases h3 : "api_token" ∈ tokens <;>
        simp [h1, h2, h3]

theorem appendAddInputs_eq (tokens : List String) (rows : List Row) :
    appendAddInputs tokens rows = rows ++ appendAddInputs tokens [] := by
  unfold appendAddInputs
  by_cases h1 : "username" ∈ tokens <;>
    by_cases h2 : "password" ∈ tokens <;>
      by_cases h3 : "api_token" ∈ tokens <;>
        simp [h1, h2, h3]

/-- What a completed `loadEditClient` went through: `liveRows` are the rows of
the form when the options arrive. -/
theorem loadEditClientAmid_completed (p : Page) (api_key : String) (id : Nat)
    (duringRecord : Page → Page) (client_data : Reply ClientRecord)
    (duringOptions : Page → Page) (options : Reply ClientOptions) (p' : Page)
    (h : loadEditClientAmid p api_key id duringRecord client_data duringOptions options =
      Outcome.completed p') :
    ∃ result opts descriptor liveRows rows2 rows3,
      client_data = Reply.resolved result ∧ options = Reply.resolved opts
      ∧ opts.get result.client_type = some descriptor
      ∧ setFirstValue "edit-title-input" (orEmpty (some result.title)) liveRows = some rows2
      ∧ setFirstValue "edit-baseurl-input" result.base_url rows2 = some rows3
      ∧ p'.editForm.rows = appendEditInputs descriptor.tokens result rows3
      ∧ ((∀ q, (duringRecord q).editForm.rows.map Row.ids = q.editForm.rows.map Row.ids) →
          (∀ q, (duringOptions q).editForm.rows.map Row.ids = q.editForm.rows.map Row.ids) →
          liveRows.map Row.ids =
            (removeRowsWithout p.editForm.rows
              ["edit-title-input", "edit-baseurl-input"]).map Row.ids) := by
  unfold loadEditClientAmid at h
  dsimp only at h
  split at h
  · cases h
  · rename_i result
    split at h
    · cases h
    · rename_i opts
      split at h
      · cases h
      · rename_i descriptor hget
        split at h
        · cases h
        · rename_i rows2 h2
          split at h
          · cases h
          · rename_i rows3 h3
            simp only [Outcome.completed.injEq] at h
            subst h
            exact ⟨result, opts, descriptor, _, rows2, rows3, rfl, rfl, hget, h2, h3, rfl,
              fun hq1 hq2 => (hq2 _).trans (hq1 _)⟩

/-- When the record and the options are fetched, the options describe the
record's client type, the form holds the title and the base-url input and
nothing adds or removes inputs of the form meanwhile, `loadEditClient` runs to
its end. -/
theorem loadEditClientAmid_completes (p : Page) (api_key : String) (id : Nat)
    (duringRecord duringOptions : Page → Page)
    (result : ClientRecord) (opts : ClientOptions) (descriptor : Descriptor)
    (title base_url : String) (hget : opts.get result.client_type = some descriptor)
    (ht : p.editForm.valueOf "edit-title-input" = some title)
    (hb : p.editForm.valueOf "edit-baseurl-input" = some base_url)
    (hq1 : ∀ q, (duringRecord q).editForm.rows.map Row.ids = q.editForm.rows.map Row.ids)
    (hq2 : ∀ q, (duringOptions q).editForm.rows.map Row.ids = q.editForm.rows.map Row.ids) :
    ∃ p', loadEditClientAmid p api_key id duringRecord (Reply.resolved result) duringOptions
      (Reply.resolved opts) = Outcome.completed p' := by
  have ht' : rowsValueOf
      (removeRowsWithout p.editForm.rows ["edit-title-input", "edit-baseurl-input"])
      "edit-title-input" = some title := by
    rw [rowsValueOf_removeRowsWithout _ _ _ (by simp)]
    exact ht
  have hb' : rowsValueOf
      (removeRowsWithout p.editForm.rows ["edit-title-input", "edit-baseurl-input"])
      "edit-baseurl-input" = some base_url := by
    rw [rowsValueOf_removeRowsWithout _ _ _ (by simp)]
    exact hb
  have key : ∀ liveRows : List Row,
      liveRows.map Row.ids =
        (removeRowsWithout p.editForm.rows
          ["edit-title-input", "edit-baseurl-input"]).map Row.ids →
      ∀ v w, setFirstValue "edit-title-input" v liveRows ≠ none
        ∧ ∀ rows2, setFirstValue "edit-title-input" v liveRows = some rows2 →
            setFirstValue "edit-baseurl-input" w rows2 ≠ none := by
    intro liveRows hids v w
    obtain ⟨t', ht''⟩ := rowsValueOf_some_of_ids liveRows _ hids "edit-title-input" title ht'
    obtain ⟨b', hb''⟩ :=
      rowsValueOf_some_of_ids liveRows _ hids "edit-baseurl-input" base_url hb'
    constructor
    · intro h2
      rw [setFirstValue_none _ _ _ h2] at ht''
      cases ht''
    · intro rows2 h2 h3
      have hb2 : rowsValueOf rows2 "edit-baseurl-input" = some b' := by
        rw [setFirstValue_other "edit-title-input" _ "edit-baseurl-input" (by decide) _ rows2
          h2]
        exact hb''
      rw [setFirstValue_none _ _ _ h3] at hb2
      cases hb2
  unfold loadEditClientAmid
  dsimp only
  simp only [hget]
  split
  · rename_i h2
    refine absurd h2 (key _ ?_ _ result.base_url).1
    exact (hq2 _).trans (hq1 _)
  · rename_i rows2 h2
    split
    · rename_i h3
      refine absurd h3 ((key _ ?_ _ result.base_url).2 rows2 h2)
      exact (hq2 _).trans (hq1 _)
    · exact ⟨_, rfl⟩

/-- What a completed `loadAddClient` went through: `liveRows` are the rows of
the form when the options arrive. -/
theorem loadAddClientAmid_completed (p : Page) (api_key client_type : String)
    (duringOptions : Page → Page) (options : Reply ClientOptions) (p' : Page)
    (h : loadAddClientAmid p api_key client_type duringOptions options =
      Outcome.completed p') :
    ∃ opts descriptor liveRows,
      options = Reply.resolved opts ∧ opts.get client_type = some descriptor
      ∧ p'.addForm.rows = appendAddInputs descriptor.tokens liveRows
      ∧ ((∀ q, (duringOptions q).addForm.rows.map Row.ids = q.addForm.rows.map Row.ids) →
          liveRows.map Row.ids =
            (setAllValues ["add-title-input", "add-baseurl-input"] ""
              (removeRowsWithout p.addForm.rows
                ["add-title-input", "add-baseurl-input"])).map Row.ids) := by
  unfold loadAddClientAmid at h
  dsimp only at h
  split at h
  · cases h
  · rename_i opts
    split at h
    · cases h
    · rename_i descriptor hget
      simp only [Outcome.completed.injEq] at h
      subst h
      exact ⟨opts, descriptor, _, rfl, hget, rfl, fun hq => hq _⟩

/-- When the options are fetched and describe the client type, `loadAddClient`
runs to its end. -/
theorem loadAddClientAmid_completes (p : Page) (api_key client_type : String)
    (duringOptions : Page → Page) (opts : ClientOptions) (descriptor : Descriptor)
    (hget : opts.get client_type = some descriptor) :
    ∃ p', loadAddClientAmid p api_key client_type duringOptions (Reply.resolved opts) =
      Outcome.completed p' := by
  unfold loadAddClientAmid
  simp only [hget]
  exact ⟨_, rfl⟩


/-- C3, amended: when `loadEditClient` has run to its end, whatever else happened
to the page meanwhile, the title input holds what an input of its kind keeps
of the `title` of the fetched record, and the base-url input what it keeps of
the `base_url`: the string without its line breaks (and, in a `url` or `email`
input, without surrounding whitespace).  In an input of a text kind a value
without line breaks is therefore held as it was sent.  The function does run
to its end whenever the record and the options are fetched, the options
describe the record's client type, the form holds the two inputs and nothing
adds or removes inputs of the form meanwhile. -/
theorem loadEditClient_title_base_url (p : Page) (api_key : String) (id : Nat)
    (duringRecord : Page → Page) (client_data : Reply ClientRecord)
    (duringOptions : Page → Page) (options : Reply ClientOptions) :
    (∀ pe, loadEditClientAmid p api_key id duringRecord client_data duringOptions options =
        Outcome.completed pe →
      ∃ result titleType baseType, client_data = Reply.resolved result
        ∧ pe.editForm.typeOf "edit-title-input" = some titleType
        ∧ pe.editForm.valueOf "edit-title-input" =
            some (sanitizeValue titleType result.title)
        ∧ pe.editForm.typeOf "edit-baseurl-input" = some baseType
        ∧ pe.editForm.valueOf "edit-baseurl-input" =
            some (sanitizeValue baseType result.base_url)
        ∧ (isTextKind titleType = true →
            (∀ c ∈ result.title.data, isLineBreak c = false) →
            pe.editForm.valueOf "edit-title-input" = some result.title)
        ∧ (isTextKind baseType = true →
            (∀ c ∈ result.base_url.data, isLineBreak c = false) →
            pe.editForm.valueOf "edit-baseurl-input" = some result.base_url))
    ∧ (∀ result opts descriptor title base_url,
        client_data = Reply.resolved result → options = Reply.resolved opts →
        opts.get result.client_type = some descriptor →
        p.editForm.valueOf "edit-title-input" = some title →
        p.editForm.valueOf "edit-baseurl-input" = some base_url →
        (∀ q, (duringRecord q).editForm.rows.map Row.ids = q.editForm.rows.map Row.ids) →
        (∀ q, (duringOptions q).editForm.rows.map Row.ids = q.editForm.rows.map Row.ids) →
        ∃ pe, loadEditClientAmid p api_key id duringRecord client_data duringOptions options =
          Outcome.completed pe) := by
  constructor
  · intro pe h
    obtain ⟨result, opts, descriptor, liveRows, rows2, rows3, hc, _, _, h2, h3, hrows, _⟩ :=
      loadEditClientAmid_completed p api_key id duringRecord client_data duringOptions
        options pe h
    obtain ⟨i, _, hi⟩ := setFirstValue_find_same _ _ _ rows2 h2
    obtain ⟨j, _, hj⟩ := setFirstValue_find_same _ _ _ rows3 h3
    have hti : rowsFind pe.editForm.rows "edit-title-input" =
        some (i.setValue (orEmpty (some result.title))) := by
      rw [hrows, appendEditInputs_eq, rowsFind_append,
        setFirstValue_find_other "edit-baseurl-input" result.base_url "edit-title-input"
          (by decide) rows2 rows3 h3, hi]
      rfl
    have hbj : rowsFind pe.editForm.rows "edit-baseurl-input" =
        some (j.setValue result.base_url) := by
      rw [hrows, appendEditInputs_eq, rowsFind_append, hj]
      rfl
    have hv1 : pe.editForm.valueOf "edit-title-input" =
        some (sanitizeValue i.type result.title) := by
      rw [valueOf_eq_rowsFind, hti, orEmpty_some]
      rfl
    have hv2 : pe.editForm.valueOf "edit-baseurl-input" =
        some (sanitizeValue j.type result.base_url) := by
      rw [valueOf_eq_rowsFind, hbj]
      rfl
    refine ⟨result, i.type, j.type, hc, ?_, hv1, ?_, hv2, ?_, ?_⟩
    · rw [typeOf_eq_rowsFind, hti]
      rfl
    · rw [typeOf_eq_rowsFind, hbj]
      rfl
    · intro hk hno
      rw [hv1, sanitizeValue_of_no_break i.type result.title hk hno]
    · intro hk hno
      rw [hv2, sanitizeValue_of_no_break j.type result.base_url hk hno]
  · intro result opts descriptor title base_url hc ho hget ht hb hq1 hq2
    subst hc
    subst ho
    exact loadEditClientAmid_completes p api_key id duringRecord duringOptions result opts
      descriptor title base_url hget ht hb hq1 hq2

theorem loadEditClient_title_base_url_witness :
    ∃ result titleType baseType,
      (Reply.resolved exampleRecord : Reply ClientRecord) = Reply.resolved result
      ∧ exampleEditOpened.editForm.typeOf "edit-title-input" = some titleType
      ∧ exampleEditOpened.editForm.valueOf "edit-title-input" =
          some (sanitizeValue titleType result.title)
      ∧ exampleEditOpened.editForm.typeOf "edit-baseurl-input" = some baseType
      ∧ exampleEditOpened.editForm.valueOf "edit-baseurl-input" =
          some (sanitizeValue baseType result.base_url)
      ∧ (isTextKind titleType = true →
          (∀ c ∈ result.title.data, isLineBreak c = false) →
          exampleEditOpened.editForm.valueOf "edit-title-input" = some result.title)
      ∧ (isTextKind baseType = true →
          (∀ c ∈ result.base_url.data, isLineBreak c = false) →
          exampleEditOpened.editForm.valueOf "edit-baseurl-input" = some result.base_url) :=
  (loadEditClient_title_base_url blankPage "key" 7 (fun q => q)
    (Reply.resolved exampleRecord) (fun q => q) (Reply.resolved exampleOptions)).1
    exampleEditOpened rfl

/-- C3 as stated fails: a title with a line break is not held as it was sent; the
title input, a text input, keeps it without the line break. -/
theorem loadEditClient_strips_line_break :
    loadEditClient blankPage "key" 7 (Reply.resolved lineBreakRecord)
        (Reply.resolved exampleOptions) =
      Outcome.completed
        (loadEditClient blankPage "key" 7 (Reply.resolved lineBreakRecord)
          (Reply.resolved exampleOptions)).page
    ∧ (loadEditClient blankPage "key" 7 (Reply.resolved lineBreakRecord)
        (Reply.resolved exampleOptions)).page.editForm.valueOf "edit-title-input"
        = some "Seedbox"
    ∧ lineBreakRecord.title = "Seed\nbox"
    ∧ (loadEditClient blankPage "key" 7 (Reply.resolved lineBreakRecord)
        (Reply.resolved exampleOptions)).page.editForm.valueOf "edit-title-input"
        ≠ some lineBreakRecord.title := by
  refine ⟨rfl, rfl, rfl, ?_⟩
  decide


/-! ## The credential lists -/

theorem appendCredentials_cons_mega (api_key : String) (c : Credential)
    (rest : List Credential) (p : Page) (h : c.source = "mega") :
    appendCredentials api_key (c :: rest) p =
      appendCredentials api_key rest
        { p with
          megaCreds := p.megaCreds ++
            [{ node := p.nextNode, cells := megaCells c, onclick := deleteRequest api_key c }],
          nextNode := p.nextNode + 1 } := by
  rw [appendCredentials, if_pos h]
  rfl

theorem appendCredentials_cons_pixeldrain (api_key : String) (c : Credential)
    (rest : List Credential) (p : Page) (h1 : c.source ≠ "mega")
    (h2 : c.source = "pixeldrain") :
    appendCredentials api_key (c :: rest) p =
      appendCredentials api_key rest
        { p with
          pixeldrainCreds := p.pixeldrainCreds ++
            [{ node := p.nextNode, cells := pixeldrainCells c,
               onclick := deleteRequest api_key c }],
          nextNode := p.nextNode + 1 } := by
  rw [appendCredentials, if_neg h1, if_pos h2]
  rfl

theorem appendCredentials_cons_other (api_key : String) (c : Credential)
    (rest : List Credential) (p : Page) (h1 : c.source ≠ "mega")
    (h2 : c.source ≠ "pixeldrain") :
    appendCredentials api_key (c :: rest) p = appendCredentials api_key rest p := by
  rw [appendCredentials, if_neg h1, if_neg h2]

theorem appendCredentials_mega (api_key : String) (l : List Credential) (p : Page) :
    (appendCredentials api_key l p).megaCreds.map CredRow.cells =
        p.megaCreds.map CredRow.cells
          ++ (l.filter (fun c => c.source = "mega")).map megaCells
    ∧ (appendCredentials api_key l p).megaCreds.map CredRow.onclick =
        p.megaCreds.map CredRow.onclick
          ++ (l.filter (fun c => c.source = "mega")).map (deleteRequest api_key) := by
  induction l generalizing p with
  | nil => simp [appendCredentials]
  | cons c rest ih =>
    by_cases h1 : c.source = "mega"
    · rw [appendCredentials_cons_mega api_key c rest p h1]
      obtain ⟨e1, e2⟩ := ih
        { p with
          megaCreds := p.megaCreds ++
            [{ node := p.nextNode, cells := megaCells c, onclick := deleteRequest api_key c }],
          nextNode := p.nextNode + 1 }
      rw [e1, e2]
      simp [List.filter_cons, h1]
    · by_cases h2 : c.source = "pixeldrain"
      · rw [appendCredentials_cons_pixeldrain api_key c rest p h1 h2]
        obtain ⟨e1, e2⟩ := ih
          { p with
            pixeldrainCreds := p.pixeldrainCreds ++
              [{ node := p.nextNode, cells := pixeldrainCells c,
                 onclick := deleteRequest api_key c }],
            nextNode := p.nextNode + 1 }
        rw [e1, e2]
        simp [List.filter_cons, h1]
      · rw [appendCredentials_cons_other api_key c rest p h1 h2]
        obtain ⟨e1, e2⟩ := ih p
        rw [e1, e2]
        simp [List.filter_cons, h1]

theorem appendCredentials_pixeldrain (api_key : String) (l : List Credential) (p : Page) :
    (appendCredentials api_key l p).pixeldrainCreds.map CredRow.cells =
        p.pixeldrainCreds.map CredRow.cells
          ++ (l.filter (fun c => c.source = "pixeldrain")).map pixeldrainCells
    ∧ (appendCredentials api_key l p).pixeldrainCreds.map CredRow.onclick =
        p.pixeldrainCreds.map CredRow.onclick
          ++ (l.filter (fun c => c.source = "pixeldrain")).map (deleteRequest api_key) := by
  induction l generalizing p with
  | nil => simp [appendCredentials]
  | cons c rest ih =>
    by_cases h1 : c.source = "mega"
    · have h2 : c.source ≠ "pixeldrain" := by rw [h1]; decide
      rw [appendCredentials_cons_mega api_key c rest p h1]
      obtain ⟨e1, e2⟩ := ih
        { p with
          megaCreds := p.megaCreds ++
            [{ node := p.nextNode, cells := megaCells c, onclick := deleteRequest api_key c }],
          nextNode := p.nextNode + 1 }
      rw [e1, e2]
      simp [List.filter_cons, h2]
    · by_cases h2 : c.source = "pixeldrain"
      · rw [appendCredentials_cons_pixeldrain api_key c rest p h1 h2]
        obtain ⟨e1, e2⟩ := ih
          { p with
            pixeldrainCreds := p.pixeldrainCreds ++
              [{ node := p.nextNode, cells := pixeldrainCells c,
                 onclick := deleteRequest api_key c }],
            nextNode := p.nextNode + 1 }
        rw [e1, e2]
        simp [List.filter_cons, h2]
      · rw [appendCredentials_cons_other api_key c rest p h1 h2]
        obtain ⟨e1, e2⟩ := ih p
        rw [e1, e2]
        simp [List.filter_cons, h2]

theorem appendCredentials_fresh (api_key : String) (l : List Credential) (p : Page)
    (h : p.credNodesFresh) : (appendCredentials api_key l p).credNodesFresh := by
  induction l generalizing p with
  | nil => exact h
  | cons c rest ih =>
    obtain ⟨hm, hp, hd, hlm, hlp⟩ := h
    by_cases h1 : c.source = "mega"
    · rw [appendCredentials_cons_mega api_key c rest p h1]
      apply ih
      refine ⟨?_, hp, ?_, ?_, ?_⟩
      · simp only [List.map_append, List.map_cons, List.map_nil]
        rw [List.nodup_append]
        refine ⟨hm, List.nodup_singleton _, ?_⟩
        intro a ha hb
        simp only [List.mem_singleton] at hb
        obtain ⟨r, hr, rfl⟩ := List.mem_map.1 ha
        have := hlm r hr
        omega
      · intro a ha b hb
        rcases List.mem_append.1 ha with ha | ha
        · exact hd a ha b hb
        · simp only [List.mem_singleton] at ha
          subst ha
          have := hlp b hb
          simp only
          omega
      · intro a ha
        rcases List.mem_append.1 ha with ha | ha
        · have := hlm a ha
          simp only
          omega
        · simp only [List.mem_singleton] at ha
          subst ha
          simp
      · intro b hb
        have := hlp b hb
        simp only
        omega
    · by_cases h2 : c.source = "pixeldrain"
      · rw [appendCredentials_cons_pixeldrain api_key c rest p h1 h2]
        apply ih
        refine ⟨hm, ?_, ?_, ?_, ?_⟩
        · simp only [List.map_append, List.map_cons, List.map_nil]
          rw [List.nodup_append]
          refine ⟨hp, List.nodup_singleton _, ?_⟩
          intro a ha hb
          simp only [List.mem_singleton] at hb
          obtain ⟨r, hr, rfl⟩ := List.mem_map.1 ha
          have := hlp r hr
          omega
        · intro a ha b hb
          rcases List.mem_append.1 hb with hb | hb
          · exact hd a ha b hb
          · simp only [List.mem_singleton] at hb
            subst hb
            have := hlm a ha
            simp only
            omega
        · intro a ha
          have := hlm a ha
          simp only
          omega
        · intro b hb
          rcases List.mem_append.1 hb with hb | hb
          · have := hlp b hb
            simp only
            omega
          · simp only [List.mem_singleton] at hb
            subst hb
            simp
      · rw [appendCredentials_cons_other api_key c rest p h1 h2]
        exact ih p ⟨hm, hp, hd, hlm, hlp⟩

theorem filter_node_eq_eraseIdx (l : List CredRow) (hn : (l.map CredRow.node).Nodup)
    (i : Nat) (h : i < l.length) :
    l.filter (fun r => r.node != (l.get ⟨i, h⟩).node) = l.eraseIdx i := by
  induction l generalizing i with
  | nil => simp at h
  | cons a rest ih =>
    simp only [List.map_cons, List.nodup_cons] at hn
    obtain ⟨ha, hrest⟩ := hn
    cases i with
    | zero =>
      simp only [List.get_eq_getElem, List.getElem_cons_zero, List.eraseIdx_cons_zero,
        List.filter_cons, bne_self_eq_false, Bool.false_eq_true, if_false]
      rw [List.filter_eq_self]
      intro r hr
      simp only [bne_iff_ne, ne_eq]
      intro heq
      exact ha (List.mem_map.2 ⟨r, hr, heq⟩)
    | succ j =>
      have hj : j < rest.length := by simpa using h
      have hne : a.node ≠ (rest.get ⟨j, hj⟩).node := by
        intro heq
        exact ha (List.mem_map.2 ⟨rest.get ⟨j, hj⟩, List.get_mem _ _ _, heq.symm⟩)
      have := ih hrest j hj
      simp only [List.get_eq_getElem] at this hne
      simp only [List.get_eq_getElem, List.getElem_cons_succ, List.eraseIdx_cons_succ,
        List.filter_cons, bne_iff_ne, ne_eq, hne, not_false_eq_true, if_true, this]

theorem filter_node_eq_self (l : List CredRow) (n : Nat) (h : ∀ r ∈ l, r.node ≠ n) :
    l.filter (fun r => r.node != n) = l := by
  rw [List.filter_eq_self]
  intro r hr
  simpa using h r hr

theorem fillCredentials_fresh (p : Page) (api_key : String) (l : List Credential) :
    (fillCredentials p api_key (Reply.resolved l)).credNodesFresh := by
  unfold fillCredentials
  apply appendCredentials_fresh
  refine ⟨List.nodup_nil, List.nodup_nil, ?_, ?_, ?_⟩
  · intro a ha
    cases ha
  · intro a ha
    cases ha
  · intro b hb
    cases hb

/-- C10: whatever the two sub-lists held before, after `fillCredentials` has
received the records the mega sub-list holds one row per record with source
`mega`, in the order of the response, showing the email and the password of
the record, and the pixeldrain sub-list one row per record with source
`pixeldrain`, in order, showing its `api_key`; records of any other source
give no row.  The delete button of each row sends `DELETE /credentials/{id}`
with the id of its record and, once that is answered, takes exactly that row
out of its list, leaving the other list as it is. -/
theorem fillCredentials_rows (p : Page) (api_key : String) (l : List Credential) :
    (fillCredentials p api_key (Reply.resolved l)).megaCreds.map CredRow.cells =
        (l.filter (fun c => c.source = "mega")).map
          (fun c => [("mega-email", c.email), ("mega-password", c.password)])
    ∧ (fillCredentials p api_key (Reply.resolved l)).megaCreds.map CredRow.onclick =
        (l.filter (fun c => c.source = "mega")).map
          (fun c => sendAPI "DELETE" ("/credentials/" ++ toString c.id) api_key none)
    ∧ (fillCredentials p api_key (Reply.resolved l)).pixeldrainCreds.map CredRow.cells =
        (l.filter (fun c => c.source = "pixeldrain")).map
          (fun c => [("pixeldrain-key", c.api_key)])
    ∧ (fillCredentials p api_key (Reply.resolved l)).pixeldrainCreds.map CredRow.onclick =
        (l.filter (fun c => c.source = "pixeldrain")).map
          (fun c => sendAPI "DELETE" ("/credentials/" ++ toString c.id) api_key none)
    ∧ (∀ i (h : i < (fillCredentials p api_key (Reply.resolved l)).megaCreds.length),
        (deleteCredential (fillCredentials p api_key (Reply.resolved l))
            ((fillCredentials p api_key (Reply.resolved l)).megaCreds.get ⟨i, h⟩)
            (Reply.resolved ())).megaCreds =
          (fillCredentials p api_key (Reply.resolved l)).megaCreds.eraseIdx i
        ∧ (deleteCredential (fillCredentials p api_key (Reply.resolved l))
            ((fillCredentials p api_key (Reply.resolved l)).megaCreds.get ⟨i, h⟩)
            (Reply.resolved ())).pixeldrainCreds =
          (fillCredentials p api_key (Reply.resolved l)).pixeldrainCreds)
    ∧ (∀ i (h : i < (fillCredentials p api_key (Reply.resolved l)).pixeldrainCreds.length),
        (deleteCredential (fillCredentials p api_key (Reply.resolved l))
            ((fillCredentials p api_key (Reply.resolved l)).pixeldrainCreds.get ⟨i, h⟩)
            (Reply.resolved ())).pixeldrainCreds =
          (fillCredentials p api_key (Reply.resolved l)).pixeldrainCreds.eraseIdx i
        ∧ (deleteCredential (fillCredentials p api_key (Reply.resolved l))
            ((fillCredentials p api_key (Reply.resolved l)).pixeldrainCreds.get ⟨i, h⟩)
            (Reply.resolved ())).megaCreds =
          (fillCredentials p api_key (Reply.resolved l)).megaCreds)
    ∧ (∀ row answer,
        (deleteCredential (fillCredentials p api_key (Reply.resolved l)) row
            answer).issuedSince (fillCredentials p api_key (Reply.resolved l)).log =
          [row.onclick]) := by
  obtain ⟨hm, hp, hd, _, _⟩ := fillCredentials_fresh p api_key l
  refine ⟨?_, ?_, ?_, ?_, ?_, ?_, ?_⟩
  · unfold fillCredentials
    rw [(appendCredentials_mega api_key l _).1]
    rfl
  · unfold fillCredentials
    rw [(appendCredentials_mega api_key l _).2]
    rfl
  · unfold fillCredentials
    rw [(appendCredentials_pixeldrain api_key l _).1]
    rfl
  · unfold fillCredentials
    rw [(appendCredentials_pixeldrain api_key l _).2]
    rfl
  · intro i h
    constructor
    · exact filter_node_eq_eraseIdx _ hm i h
    · apply filter_node_eq_self
      intro r hr heq
      exact hd _ (List.get_mem _ _ _) r hr heq.symm
  · intro i h
    constructor
    · exact filter_node_eq_eraseIdx _ hp i h
    · apply filter_node_eq_self
      intro r hr heq
      exact hd r hr _ (List.get_mem _ _ _) heq
  · intro row answer
    cases answer <;> simp [deleteCredential, Page.issuedSince, Page.issue]

theorem fillCredentials_rows_example :
    (fillCredentials blankPage "key" (Reply.resolved exampleCredentials)).megaCreds =
      [{ node := 0, cells := [("mega-email", "a@b.c"), ("mega-password", "pw")],
         onclick := sendAPI "DELETE" "/credentials/4" "key" none }]
    ∧ (fillCredentials blankPage "key" (Reply.resolved exampleCredentials)).pixeldrainCreds =
      [{ node := 1, cells := [("pixeldrain-key", "k9")],
         onclick := sendAPI "DELETE" "/credentials/9" "key" none }] := by
  constructor <;> rfl

/-! ## Fields follow the descriptor -/

theorem filter_hasInput_map_ids (a b : List Row) (h : a.map Row.ids = b.map Row.ids)
    (ids : List String) :
    (a.filter (fun r => r.hasInput ids)).map Row.ids =
      (b.filter (fun r => r.hasInput ids)).map Row.ids := by
  induction a generalizing b with
  | nil =>
    cases b with
    | nil => rfl
    | cons s rest => simp at h
  | cons r rest ih =>
    cases b with
    | nil => simp at h
    | cons s rest' =>
      simp only [List.map_cons, List.cons.injEq] at h
      obtain ⟨h1, h2⟩ := h
      simp only [List.filter_cons, hasInput_congr r s ids h1]
      cases s.hasInput ids with
      | true => simp [h1, ih rest' h2]
      | false => simp [ih rest' h2]

theorem setAllValues_ids (ids : List String) (v : String) (rows : List Row) :
    (setAllValues ids v rows).map Row.ids = rows.map Row.ids := by
  unfold setAllValues
  rw [List.map_map]
  apply List.map_congr_left
  intro r _
  simp only [Function.comp, Row.ids, List.map_map]
  apply List.map_congr_left
  intro i _
  simp only [Function.comp]
  split <;> rfl

theorem appendEditInputs_ids (tokens : List String) (result : ClientRecord) :
    (appendEditInputs tokens result []).map Row.ids =
      declaredIds tokens "edit-username-input" "edit-password-input" "edit-token-input" := by
  unfold appendEditInputs declaredIds
  by_cases h1 : "username" ∈ tokens <;>
    by_cases h2 : "password" ∈ tokens <;>
      by_cases h3 : "api_token" ∈ tokens <;>
        simp [h1, h2, h3, Row.ids, Row.setInputValue, Input.setValue, createUsernameInput,
          createPasswordInput, createApiTokenInput]

theorem appendAddInputs_ids (tokens : List String) :
    (appendAddInputs tokens []).map Row.ids =
      declaredIds tokens "add-username-input" "add-password-input" "add-token-input" := by
  unfold appendAddInputs declaredIds
  by_cases h1 : "username" ∈ tokens <;>
    by_cases h2 : "password" ∈ tokens <;>
      by_cases h3 : "api_token" ∈ tokens <;>
        simp [h1, h2, h3, Row.ids, createUsernameInput, createPasswordInput,
          createApiTokenInput]

theorem mem_declaredIds (tokens : List String) (u pw t : String) (k : List String) :
    k ∈ declaredIds tokens u pw t ↔
      (k = [u] ∧ "username" ∈ tokens) ∨ (k = [pw] ∧ "password" ∈ tokens)
        ∨ (k = [t] ∧ "api_token" ∈ tokens) := by
  unfold declaredIds
  by_cases h1 : "username" ∈ tokens <;>
    by_cases h2 : "password" ∈ tokens <;>
      by_cases h3 : "api_token" ∈ tokens <;>
        simp [h1, h2, h3]

theorem declaredIds_count (tokens : List String) (u pw t x : String)
    (hx : (x = u ∧ x ≠ pw ∧ x ≠ t) ∨ (x ≠ u ∧ x = pw ∧ x ≠ t) ∨ (x ≠ u ∧ x ≠ pw ∧ x = t)) :
    ((declaredIds tokens u pw t).filter (fun k => decide (x ∈ k))).length ≤ 1 := by
  unfold declaredIds
  rcases hx with ⟨rfl, h2, h3⟩ | ⟨h1, rfl, h3⟩ | ⟨h1, h2, rfl⟩ <;>
    by_cases c1 : "username" ∈ tokens <;>
      by_cases c2 : "password" ∈ tokens <;>
        by_cases c3 : "api_token" ∈ tokens <;>
          simp [c1, c2, c3, *, List.filter_cons]

theorem filter_hasInput_singleton_length (rows : List Row) (x : String) :
    (rows.filter (fun r => r.hasInput [x])).length =
      ((rows.map Row.ids).filter (fun k => decide (x ∈ k))).length := by
  induction rows with
  | nil => rfl
  | cons r rest ih =>
    have hrx : r.hasInput [x] = decide (x ∈ r.ids) := by
      cases h : r.hasInput [x] with
      | true =>
        rw [hasInput_iff] at h
        obtain ⟨i, hi, hix⟩ := h
        simp only [List.mem_singleton] at hix
        subst hix
        simp [hi]
      | false =>
        rw [hasInput_false_iff] at h
        have : x ∉ r.ids := fun hx => h x hx (List.mem_singleton.2 rfl)
        simp [this]
    simp only [List.filter_cons, List.map_cons, hrx]
    split <;> simp [ih]

theorem opened_shows_declared (tokens : List String) (before kept extra : List Row)
    (static : List String) (u pw t : String)
    (hkept : kept.map Row.ids = (removeRowsWithout before static).map Row.ids)
    (hextra : extra.map Row.ids = declaredIds tokens u pw t)
    (hclean : staticRowsClean before static [u, pw, t])
    (hu : u ∉ static) (hp : pw ∉ static) (ht : t ∉ static)
    (hup : u ≠ pw) (hut : u ≠ t) (hpt : pw ≠ t) :
    showsDeclaredFields tokens before (kept ++ extra) static u pw t := by
  have hK : ∀ r ∈ kept, r.hasInput static = true ∧ r.hasInput [u, pw, t] = false := by
    intro r hr
    obtain ⟨s, hs, hsr⟩ := mem_of_map_ids_eq kept _ hkept r hr
    unfold removeRowsWithout at hs
    rw [List.mem_filter] at hs
    rw [hasInput_congr r s static hsr.symm, hasInput_congr r s [u, pw, t] hsr.symm]
    exact ⟨hs.2, hclean s hs.1 hs.2⟩
  have hKno : ∀ r ∈ kept, ∀ x ∈ [u, pw, t], x ∉ r.ids := by
    intro r hr x hx hxr
    exact (hasInput_false_iff r [u, pw, t]).1 (hK r hr).2 x hxr hx
  have hE : ∀ r ∈ extra, (r.ids = [u] ∧ "username" ∈ tokens)
      ∨ (r.ids = [pw] ∧ "password" ∈ tokens) ∨ (r.ids = [t] ∧ "api_token" ∈ tokens) := by
    intro r hr
    rw [← mem_declaredIds, ← hextra]
    exact List.mem_map.2 ⟨r, hr, rfl⟩
  have hEx : ∀ k, k ∈ declaredIds tokens u pw t → ∃ r ∈ extra, r.ids = k := by
    intro k hk
    rw [← hextra] at hk
    obtain ⟨r, hr, hrk⟩ := List.mem_map.1 hk
    exact ⟨r, hr, hrk⟩
  have hEstatic : ∀ r ∈ extra, r.hasInput static = false := by
    intro r hr
    rw [hasInput_false_iff]
    intro i hi
    rcases hE r hr with ⟨h, _⟩ | ⟨h, _⟩ | ⟨h, _⟩ <;>
      · rw [h] at hi
        simp only [List.mem_singleton] at hi
        subst hi
        assumption
  have hcount : ∀ x, ((x = u ∧ x ≠ pw ∧ x ≠ t) ∨ (x ≠ u ∧ x = pw ∧ x ≠ t)
      ∨ (x ≠ u ∧ x ≠ pw ∧ x = t)) → x ∈ [u, pw, t] →
      ((kept ++ extra).filter (fun r => r.hasInput [x])).length ≤ 1 := by
    intro x hx hmem
    rw [List.filter_append, List.length_append]
    have h0 : kept.filter (fun r => r.hasInput [x]) = [] := by
      rw [List.filter_eq_nil_iff]
      intro r hr hrx
      rw [hasInput_iff] at hrx
      obtain ⟨i, hi, hix⟩ := hrx
      simp only [List.mem_singleton] at hix
      subst hix
      exact hKno r hr i hmem hi
    rw [h0, filter_hasInput_singleton_length, hextra]
    simpa using declaredIds_count tokens u pw t x hx
  refine ⟨⟨?_, ?_, ?_⟩, ⟨?_, ?_, ?_⟩, ?_, ?_, ?_⟩
  · constructor
    · intro h
      obtain ⟨r, hr, hrk⟩ := hEx [u] ((mem_declaredIds _ _ _ _ _).2 (Or.inl ⟨rfl, h⟩))
      exact ⟨r, List.mem_append_right _ hr, by rw [hrk]; exact List.mem_singleton.2 rfl⟩
    · rintro ⟨r, hr, hur⟩
      rcases List.mem_append.1 hr with hr | hr
      · exact absurd hur (hKno r hr u (by simp))
      · rcases hE r hr with ⟨h, ht'⟩ | ⟨h, _⟩ | ⟨h, _⟩
        · exact ht'
        · rw [h] at hur
          exact absurd (List.mem_singleton.1 hur) hup
        · rw [h] at hur
          exact absurd (List.mem_singleton.1 hur) hut
  · constructor
    · intro h
      obtain ⟨r, hr, hrk⟩ :=
        hEx [pw] ((mem_declaredIds _ _ _ _ _).2 (Or.inr (Or.inl ⟨rfl, h⟩)))
      exact ⟨r, List.mem_append_right _ hr, by rw [hrk]; exact List.mem_singleton.2 rfl⟩
    · rintro ⟨r, hr, hur⟩
      rcases List.mem_append.1 hr with hr | hr
      · exact absurd hur (hKno r hr pw (by simp))
      · rcases hE r hr with ⟨h, _⟩ | ⟨h, ht'⟩ | ⟨h, _⟩
        · rw [h] at hur
          exact absurd (List.mem_singleton.1 hur).symm hup
        · exact ht'
        · rw [h] at hur
          exact absurd (List.mem_singleton.1 hur) hpt
  · constructor
    · intro h
      obtain ⟨r, hr, hrk⟩ :=
        hEx [t] ((mem_declaredIds _ _ _ _ _).2 (Or.inr (Or.inr ⟨rfl, h⟩)))
      exact ⟨r, List.mem_append_right _ hr, by rw [hrk]; exact List.mem_singleton.2 rfl⟩
    · rintro ⟨r, hr, hur⟩
      rcases List.mem_append.1 hr with hr | hr
      · exact absurd hur (hKno r hr t (by simp))
      · rcases hE r hr with ⟨h, _⟩ | ⟨h, _⟩ | ⟨h, ht'⟩
        · rw [h] at hur
          exact absurd (List.mem_singleton.1 hur).symm hut
        · rw [h] at hur
          exact absurd (List.mem_singleton.1 hur).symm hpt
        · exact ht'
  · exact hcount u (Or.inl ⟨rfl, hup, hut⟩) (by simp)
  · exact hcount pw (Or.inr (Or.inl ⟨Ne.symm hup, rfl, hpt⟩)) (by simp)
  · exact hcount t (Or.inr (Or.inr ⟨Ne.symm hut, Ne.symm hpt, rfl⟩)) (by simp)
  · rw [List.filter_append]
    have h0 : extra.filter (fun r => r.hasInput static) = [] := by
      rw [List.filter_eq_nil_iff]
      intro r hr hrx
      rw [hEstatic r hr] at hrx
      cases hrx
    rw [h0, List.append_nil, filter_hasInput_map_ids kept _ hkept static]
    unfold removeRowsWithout
    rw [List.filter_filter]
    simp
  · intro r hr
    rcases List.mem_append.1 hr with hr | hr
    · exact Or.inl (hK r hr).1
    · rcases hE r hr with ⟨h, _⟩ | ⟨h, _⟩ | ⟨h, _⟩
      · exact Or.inr (Or.inl h)
      · exact Or.inr (Or.inr (Or.inl h))
      · exact Or.inr (Or.inr (Or.inr h))
  · intro r hr hrs
    rcases List.mem_append.1 hr with hr | hr
    · exact (hK r hr).2
    · rw [hEstatic r hr] at hrs
      cases hrs


theorem testEditClientAmid_issuedSince (p : Page) (api_key : String)
    (duringTest : Page → Page) (test : Reply TestResult) :
    (testEditClientAmid p api_key duringTest test).1.issuedSince p.log =
      match testEditData p.editForm with
      | none => []
      | some tested => [sendAPI "POST" "/externalclients/test" api_key (some tested)] := by
  cases hd : testEditData p.editForm with
  | none => simp [testEditClientAmid, hd, Page.issuedSince]
  | some tested =>
    cases test with
    | rejected s => simp [testEditClientAmid, hd, Page.issuedSince, Page.issue, Page.meanwhile]
    | resolved result =>
      cases hs : result.success <;>
        simp [testEditClientAmid, hd, hs, Page.issuedSince, Page.issue, Page.meanwhile]

theorem testAddClientAmid_issuedSince (p : Page) (api_key : String)
    (duringTest : Page → Page) (test : Reply TestResult) :
    (testAddClientAmid p api_key duringTest test).1.issuedSince p.log =
      match testAddData p.addForm with
      | none => []
      | some tested => [sendAPI "POST" "/externalclients/test" api_key (some tested)] := by
  cases hd : testAddData p.addForm with
  | none => simp [testAddClientAmid, hd, Page.issuedSince]
  | some tested =>
    cases test with
    | rejected s => simp [testAddClientAmid, hd, Page.issuedSince, Page.issue, Page.meanwhile]
    | resolved result =>
      cases hs : result.success <;>
        simp [testAddClientAmid, hd, hs, Page.issuedSince, Page.issue, Page.meanwhile]

/-- A form with no input for a token gives `null` for it in the bodies built
from it, in edit mode. -/
theorem editData_null (form : Form) (tokens : List String)
    (h : noInputWhenUndeclared tokens form.rows "edit-username-input" "edit-password-input"
      "edit-token-input") :
    (∀ tested, testEditData form = some tested → nullWhenUndeclared tokens tested)
    ∧ (∀ persisted, saveEditData form = some persisted →
        nullWhenUndeclared tokens persisted) := by
  obtain ⟨hu, hp, ht⟩ := h
  rw [← valueOf_eq_rowsValueOf] at hu hp ht
  constructor
  · intro tested hd
    unfold testEditData at hd
    cases hb : form.valueOf "edit-baseurl-input" with
    | none => simp [hb] at hd
    | some b =>
      simp only [hb, Option.some.injEq] at hd
      subst hd
      refine ⟨fun h => ?_, fun h => ?_, fun h => ?_⟩
      · simp [JsObject.get, hu h, valueOrNull]
      · simp [JsObject.get, hp h, valueOrNull]
      · simp [JsObject.get, ht h, valueOrNull]
  · intro persisted hd
    unfold saveEditData at hd
    cases hb : form.valueOf "edit-baseurl-input" with
    | none => simp [hb] at hd
    | some b =>
      cases htt : form.valueOf "edit-title-input" with
      | none => simp [htt] at hd
      | some t =>
        simp only [hb, htt, Option.some.injEq] at hd
        subst hd
        refine ⟨fun h => ?_, fun h => ?_, fun h => ?_⟩
        · simp [JsObject.get, hu h, valueOrNull]
        · simp [JsObject.get, hp h, valueOrNull]
        · simp [JsObject.get, ht h, valueOrNull]

/-- A form with no input for a token gives `null` for it in the bodies built
from it, in add mode. -/
theorem addData_null (form : Form) (tokens : List String)
    (h : noInputWhenUndeclared tokens form.rows "add-username-input" "add-password-input"
      "add-token-input") :
    (∀ tested, testAddData form = some tested → nullWhenUndeclared tokens tested)
    ∧ (∀ persisted, saveAddData form = some persisted →
        nullWhenUndeclared tokens persisted) := by
  obtain ⟨hu, hp, ht⟩ := h
  rw [← valueOf_eq_rowsValueOf] at hu hp ht
  constructor
  · intro tested hd
    unfold testAddData at hd
    cases hb : form.valueOf "add-baseurl-input" with
    | none => simp [hb] at hd
    | some b =>
      simp only [hb, Option.some.injEq] at hd
      subst hd
      refine ⟨fun h => ?_, fun h => ?_, fun h => ?_⟩
      · simp [JsObject.get, hu h, valueOrNull]
      · simp [JsObject.get, hp h, valueOrNull]
      · simp [JsObject.get, ht h, valueOrNull]
  · intro persisted hd
    unfold saveAddData at hd
    cases hb : form.valueOf "add-baseurl-input" with
    | none => simp [hb] at hd
    | some b =>
      cases htt : form.valueOf "add-title-input" with
      | none => simp [htt] at hd
      | some t =>
        simp only [hb, htt, Option.some.injEq] at hd
        subst hd
        refine ⟨fun h => ?_, fun h => ?_, fun h => ?_⟩
        · simp [JsObject.get, hu h, valueOrNull]
        · simp [JsObject.get, hp h, valueOrNull]
        · simp [JsObject.get, ht h, valueOrNull]

/-- Test and Save send `null` for a token when the form has no input for it,
neither when the test is sent nor when it is answered, in edit mode. -/
theorem editBodies_null (q : Page) (api_key : String) (duringTest : Page → Page)
    (test : Reply TestResult) (duringSave : Page → Page) (put : Reply Unit)
    (duringReload : Page → Page) (clients : Reply (List ClientRecord))
    (tokens : List String)
    (hq : noInputWhenUndeclared tokens q.editForm.rows "edit-username-input"
      "edit-password-input" "edit-token-input")
    (hlive : ∀ q', q'.editForm = q.editForm →
      noInputWhenUndeclared tokens (duringTest q').editForm.rows "edit-username-input"
        "edit-password-input" "edit-token-input") :
    (∀ r ∈ (testEditClientAmid q api_key duringTest test).1.issuedSince q.log, ∀ body,
        r.body = some body → nullWhenUndeclared tokens body)
    ∧ (∀ r ∈ (saveEditClientAmid q api_key duringTest test duringSave put duringReload
          clients).issuedSince q.log, ∀ body,
        r.body = some body → nullWhenUndeclared tokens body) := by
  have hT := (editData_null q.editForm tokens hq).1
  constructor
  · intro r hr body hbody
    rw [testEditClientAmid_issuedSince] at hr
    cases hd : testEditData q.editForm with
    | none => simp [hd] at hr
    | some tested =>
      simp only [hd, List.mem_singleton] at hr
      subst hr
      simp only [sendAPI, Option.some.injEq] at hbody
      subst hbody
      exact hT tested hd
  · intro r hr body hbody
    rw [saveEditClientAmid_issuedSince] at hr
    cases hd : testEditData q.editForm with
    | none => simp [hd] at hr
    | some tested =>
      obtain ⟨q', hq', _, _, _, hform, _⟩ :=
        testEditClientAmid_form q api_key duringTest test tested hd
      have hS := (editData_null (testEditClientAmid q api_key duringTest test).1.editForm
        tokens (by rw [hform]; exact hlive q' hq')).2
      simp only [hd] at hr
      rcases List.mem_cons.1 hr with hr | hr
      · subst hr
        simp only [sendAPI, Option.some.injEq] at hbody
        subst hbody
        exact hT tested hd
      · cases test with
        | rejected s => simp at hr
        | resolved result =>
          cases hs : result.success with
          | false => simp [hs] at hr
          | true =>
            cases hpd : saveEditData
                (testEditClientAmid q api_key duringTest (Reply.resolved result)).1.editForm with
            | none => simp [hs, hpd] at hr
            | some persisted =>
              simp only [hs, hpd, if_true] at hr
              rcases List.mem_cons.1 hr with hr | hr
              · subst hr
                simp only [sendAPI, Option.some.injEq] at hbody
                subst hbody
                exact hS persisted hpd
              · cases put with
                | resolved u =>
                  simp only [List.mem_singleton] at hr
                  subst hr
                  simp [fetchAPI] at hbody
                | rejected s => simp at hr

/-- Test and Save send `null` for a token when the form has no input for it,
neither when the test is sent nor when it is answered, in add mode. -/
theorem addBodies_null (q : Page) (api_key : String) (duringTest : Page → Page)
    (test : Reply TestResult) (duringSave : Page → Page) (post : Reply Unit)
    (duringReload : Page → Page) (clients : Reply (List ClientRecord))
    (tokens : List String)
    (hq : noInputWhenUndeclared tokens q.addForm.rows "add-username-input"
      "add-password-input" "add-token-input")
    (hlive : ∀ q', q'.addForm = q.addForm →
      noInputWhenUndeclared tokens (duringTest q').addForm.rows "add-username-input"
        "add-password-input" "add-token-input") :
    (∀ r ∈ (testAddClientAmid q api_key duringTest test).1.issuedSince q.log, ∀ body,
        r.body = some body → nullWhenUndeclared tokens body)
    ∧ (∀ r ∈ (saveAddClientAmid q api_key duringTest test duringSave post duringReload
          clients).issuedSince q.log, ∀ body,
        r.body = some body → nullWhenUndeclared tokens body) := by
  have hT := (addData_null q.addForm tokens hq).1
  constructor
  · intro r hr body hbody
    rw [testAddClientAmid_issuedSince] at hr
    cases hd : testAddData q.addForm with
    | none => simp [hd] at hr
    | some tested =>
      simp only [hd, List.mem_singleton] at hr
      subst hr
      simp only [sendAPI, Option.some.injEq] at hbody
      subst hbody
      exact hT tested hd
  · intro r hr body hbody
    rw [saveAddClientAmid_issuedSince] at hr
    cases hd : testAddData q.addForm with
    | none => simp [hd] at hr
    | some tested =>
      obtain ⟨q', hq', _, _, _, hform, _⟩ :=
        testAddClientAmid_form q api_key duringTest test tested hd
      have hS := (addData_null (testAddClientAmid q api_key duringTest test).1.addForm
        tokens (by rw [hform]; exact hlive q' hq')).2
      simp only [hd] at hr
      rcases List.mem_cons.1 hr with hr | hr
      · subst hr
        simp only [sendAPI, Option.some.injEq] at hbody
        subst hbody
        exact hT tested hd
      · cases test with
        | rejected s => simp at hr
        | resolved result =>
          cases hs : result.success with
          | false => simp [hs] at hr
          | true =>
            cases hpd : saveAddData
                (testAddClientAmid q api_key duringTest (Reply.resolved result)).1.addForm with
            | none => simp [hs, hpd] at hr
            | some persisted =>
              simp only [hs, hpd, if_true] at hr
              rcases List.mem_cons.1 hr with hr | hr
              · subst hr
                simp only [sendAPI, Option.some.injEq] at hbody
                subst hbody
                exact hS persisted hpd
              · cases post with
                | resolved u =>
                  simp only [List.mem_singleton] at hr
                  subst hr
                  simp [fetchAPI] at hbody
                | rejected s => simp at hr

/-- With the inputs of the opened form, an undeclared token has no input. -/
theorem undeclared_valueOf_none (tokens : List String) (before after rows : List Row)
    (static : List String) (u pw t : String)
    (h : showsDeclaredFields tokens before after static u pw t)
    (hrows : rows.map Row.ids = after.map Row.ids) :
    noInputWhenUndeclared tokens rows u pw t := by
  obtain ⟨⟨h1, h2, h3⟩, _⟩ := h
  refine ⟨fun hn => ?_, fun hn => ?_, fun hn => ?_⟩
  · apply rowsValueOf_eq_none
    intro r hr hmem
    obtain ⟨s, hs, hsr⟩ := mem_of_map_ids_eq rows after hrows r hr
    exact hn (h1.2 ⟨s, hs, by rw [hsr]; exact hmem⟩)
  · apply rowsValueOf_eq_none
    intro r hr hmem
    obtain ⟨s, hs, hsr⟩ := mem_of_map_ids_eq rows after hrows r hr
    exact hn (h2.2 ⟨s, hs, by rw [hsr]; exact hmem⟩)
  · apply rowsValueOf_eq_none
    intro r hr hmem
    obtain ⟨s, hs, hsr⟩ := mem_of_map_ids_eq rows after hrows r hr
    exact hn (h3.2 ⟨s, hs, by rw [hsr]; exact hmem⟩)


theorem typeInto_ids (f : Form) (id v : String) :
    (f.typeInto id v).rows.map Row.ids = f.rows.map Row.ids := by
  unfold Form.typeInto
  cases h : setFirstValue id v f.rows with
  | none => rfl
  | some rows' => exact setFirstValue_ids id v f.rows rows' h

theorem typeAddBaseUrl_ids (q : Page) :
    (typeAddBaseUrl q).addForm.rows.map Row.ids = q.addForm.rows.map Row.ids :=
  typeInto_ids q.addForm "add-baseurl-input" "http://other:9090"

/-- C1, amended: take a form whose title row and base-url row carry no credential
input, and let nothing add or remove inputs of the form while the requests of
the open are in flight.  Once `loadEditClient` (for the descriptor of the
fetched record's client type) or `loadAddClient` (for the descriptor of the
chosen client type) has run to its end, the form has an input row for each of
`username`, `password`, `api_token` exactly when the descriptor's `tokens` list
it, at most one row for each, the title and base-url rows it had before, and
no other row; and whatever is typed into the inputs afterwards, as long as no
input is added meanwhile, every body that Test and Save send carries `null`
for each token that `tokens` does not list.  Both functions run to their end
when the backend answers and knows the client type (for edit, when the form
also holds its title and base-url inputs). -/
theorem fields_follow_descriptor (p : Page) (api_key : String) (id : Nat)
    (duringRecord : Page → Page) (client_data : Reply ClientRecord)
    (duringOptions : Page → Page) (options : Reply ClientOptions)
    (client_type : String) :
    (∀ pe,
      staticRowsClean p.editForm.rows ["edit-title-input", "edit-baseurl-input"]
        ["edit-username-input", "edit-password-input", "edit-token-input"] →
      (∀ q, (duringRecord q).editForm.rows.map Row.ids = q.editForm.rows.map Row.ids) →
      (∀ q, (duringOptions q).editForm.rows.map Row.ids = q.editForm.rows.map Row.ids) →
      loadEditClientAmid p api_key id duringRecord client_data duringOptions options =
        Outcome.completed pe →
      ∃ result opts descriptor,
        client_data = Reply.resolved result ∧ options = Reply.resolved opts
        ∧ opts.get result.client_type = some descriptor
        ∧ showsDeclaredFields descriptor.tokens p.editForm.rows pe.editForm.rows
            ["edit-title-input", "edit-baseurl-input"]
            "edit-username-input" "edit-password-input" "edit-token-input"
        ∧ ∀ (q : Page) (key : String) (duringTest : Page → Page) (test : Reply TestResult)
            (duringSave : Page → Page) (put : Reply Unit) (duringReload : Page → Page)
            (clients : Reply (List ClientRecord)),
            q.editForm.rows.map Row.ids = pe.editForm.rows.map Row.ids →
            (∀ q', (duringTest q').editForm.rows.map Row.ids
              = q'.editForm.rows.map Row.ids) →
            (∀ r ∈ (testEditClientAmid q key duringTest test).1.issuedSince q.log, ∀ body,
                r.body = some body → nullWhenUndeclared descriptor.tokens body)
            ∧ (∀ r ∈ (saveEditClientAmid q key duringTest test duringSave put duringReload
                  clients).issuedSince q.log, ∀ body,
                r.body = some body → nullWhenUndeclared descriptor.tokens body))
    ∧ (∀ pa,
      staticRowsClean p.addForm.rows ["add-title-input", "add-baseurl-input"]
        ["add-username-input", "add-password-input", "add-token-input"] →
      (∀ q, (duringOptions q).addForm.rows.map Row.ids = q.addForm.rows.map Row.ids) →
      loadAddClientAmid p api_key client_type duringOptions options = Outcome.completed pa →
      ∃ opts descriptor,
        options = Reply.resolved opts ∧ opts.get client_type = some descriptor
        ∧ showsDeclaredFields descriptor.tokens p.addForm.rows pa.addForm.rows
            ["add-title-input", "add-baseurl-input"]
            "add-username-input" "add-password-input" "add-token-input"
        ∧ ∀ (q : Page) (key : String) (duringTest : Page → Page) (test : Reply TestResult)
            (duringSave : Page → Page) (post : Reply Unit) (duringReload : Page → Page)
            (clients : Reply (List ClientRecord)),
            q.addForm.rows.map Row.ids = pa.addForm.rows.map Row.ids →
            (∀ q', (duringTest q').addForm.rows.map Row.ids = q'.addForm.rows.map Row.ids) →
            (∀ r ∈ (testAddClientAmid q key duringTest test).1.issuedSince q.log, ∀ body,
                r.body = some body → nullWhenUndeclared descriptor.tokens body)
            ∧ (∀ r ∈ (saveAddClientAmid q key duringTest test duringSave post duringReload
                  clients).issuedSince q.log, ∀ body,
                r.body = some body → nullWhenUndeclared descriptor.tokens body))
    ∧ (∀ result opts descriptor title base_url,
        client_data = Reply.resolved result → options = Reply.resolved opts →
        opts.get result.client_type = some descriptor →
        p.editForm.valueOf "edit-title-input" = some title →
        p.editForm.valueOf "edit-baseurl-input" = some base_url →
        (∀ q, (duringRecord q).editForm.rows.map Row.ids = q.editForm.rows.map Row.ids) →
        (∀ q, (duringOptions q).editForm.rows.map Row.ids = q.editForm.rows.map Row.ids) →
        ∃ pe, loadEditClientAmid p api_key id duringRecord client_data duringOptions options =
          Outcome.completed pe)
    ∧ (∀ opts descriptor,
        options = Reply.resolved opts → opts.get client_type = some descriptor →
        ∃ pa, loadAddClientAmid p api_key client_type duringOptions options =
          Outcome.completed pa) := by
  refine ⟨?_, ?_, ?_, ?_⟩
  · intro pe hedit hq1 hq2 h
    obtain ⟨result, opts, descriptor, liveRows, rows2, rows3, hc, ho, hget, h2, h3, hrows,
        hlive⟩ :=
      loadEditClientAmid_completed p api_key id duringRecord client_data duringOptions
        options pe h
    have hshow : showsDeclaredFields descriptor.tokens p.editForm.rows pe.editForm.rows
        ["edit-title-input", "edit-baseurl-input"]
        "edit-username-input" "edit-password-input" "edit-token-input" := by
      rw [hrows, appendEditInputs_eq]
      apply opened_shows_declared
      · rw [setFirstValue_ids _ _ _ _ h3, setFirstValue_ids _ _ _ _ h2]
        exact hlive hq1 hq2
      · exact appendEditInputs_ids _ _
      · exact hedit
      all_goals decide
    refine ⟨result, opts, descriptor, hc, ho, hget, hshow, ?_⟩
    intro q key duringTest test duringSave put duringReload clients hq hquiet
    apply editBodies_null q key duringTest test duringSave put duringReload clients
      descriptor.tokens
    · exact undeclared_valueOf_none _ _ _ _ _ _ _ _ hshow hq
    · intro q' hq'
      apply undeclared_valueOf_none _ _ _ _ _ _ _ _ hshow
      rw [hquiet q', hq']
      exact hq
  · intro pa hadd hq h
    obtain ⟨opts, descriptor, liveRows, ho, hget, hrows, hlive⟩ :=
      loadAddClientAmid_completed p api_key client_type duringOptions options pa h
    have hshow : showsDeclaredFields descriptor.tokens p.addForm.rows pa.addForm.rows
        ["add-title-input", "add-baseurl-input"]
        "add-username-input" "add-password-input" "add-token-input" := by
      rw [hrows, appendAddInputs_eq]
      apply opened_shows_declared
      · rw [hlive hq]
        exact setAllValues_ids _ _ _
      · exact appendAddInputs_ids _
      · exact hadd
      all_goals decide
    refine ⟨opts, descriptor, ho, hget, hshow, ?_⟩
    intro q key duringTest test duringSave post duringReload clients hq' hquiet
    apply addBodies_null q key duringTest test duringSave post duringReload clients
      descriptor.tokens
    · exact undeclared_valueOf_none _ _ _ _ _ _ _ _ hshow hq'
    · intro q' hq''
      apply undeclared_valueOf_none _ _ _ _ _ _ _ _ hshow
      rw [hquiet q', hq'']
      exact hq'
  · intro result opts descriptor title base_url hc ho hget ht hb hq1 hq2
    subst hc
    subst ho
    exact loadEditClientAmid_completes p api_key id duringRecord duringOptions result opts
      descriptor title base_url hget ht hb hq1 hq2
  · intro opts descriptor ho hget
    subst ho
    exact loadAddClientAmid_completes p api_key client_type duringOptions opts descriptor hget

theorem blankPage_clean :
    staticRowsClean blankPage.editForm.rows ["edit-title-input", "edit-baseurl-input"]
      ["edit-username-input", "edit-password-input", "edit-token-input"]
    ∧ staticRowsClean blankPage.addForm.rows ["add-title-input", "add-baseurl-input"]
      ["add-username-input", "add-password-input", "add-token-input"] := by
  constructor <;>
    · intro r hr _
      simp only [blankPage, blankForm, List.mem_cons, List.mem_singleton, List.not_mem_nil,
        or_false] at hr
      rcases hr with rfl | rfl <;> rfl

theorem fields_follow_descriptor_witness :
    ∃ opts descriptor,
      Reply.resolved exampleOptions = Reply.resolved opts
      ∧ opts.get "qBittorrent" = some descriptor
      ∧ showsDeclaredFields descriptor.tokens blankPage.addForm.rows
          (loadAddClientAmid blankPage "key" "qBittorrent" typeAddBaseUrl
            (Reply.resolved exampleOptions)).page.addForm.rows
          ["add-title-input", "add-baseurl-input"]
          "add-username-input" "add-password-input" "add-token-input"
      ∧ ∀ (q : Page) (key : String) (duringTest : Page → Page) (test : Reply TestResult)
          (duringSave : Page → Page) (post : Reply Unit) (duringReload : Page → Page)
          (clients : Reply (List ClientRecord)),
          q.addForm.rows.map Row.ids =
            (loadAddClientAmid blankPage "key" "qBittorrent" typeAddBaseUrl
              (Reply.resolved exampleOptions)).page.addForm.rows.map Row.ids →
          (∀ q', (duringTest q').addForm.rows.map Row.ids = q'.addForm.rows.map Row.ids) →
          (∀ r ∈ (testAddClientAmid q key duringTest test).1.issuedSince q.log, ∀ body,
              r.body = some body → nullWhenUndeclared descriptor.tokens body)
          ∧ (∀ r ∈ (saveAddClientAmid q key duringTest test duringSave post duringReload
                clients).issuedSince q.log, ∀ body,
              r.body = some body → nullWhenUndeclared descriptor.tokens body) :=
  (fields_follow_descriptor blankPage "key" 7 (fun q => q) (Reply.resolved exampleRecord)
    typeAddBaseUrl (Reply.resolved exampleOptions) "qBittorrent").2.1 _ blankPage_clean.2
    typeAddBaseUrl_ids rfl

/-- C1 as stated fails in two ways.  A second click on the same client type while
the options of the first are in flight: both opens append their rows, and the
form ends with two username rows and two password rows.  And a form whose
title row also holds a token input: the row stays, and Save submits the
token typed there although the descriptor lists no `api_token`. -/
theorem fields_not_followed :
    loadAddClientAmid blankPage "key" "qBittorrent" otherAddOpen
        (Reply.resolved exampleOptions) =
      Outcome.completed
        (loadAddClientAmid blankPage "key" "qBittorrent" otherAddOpen
          (Reply.resolved exampleOptions)).page
    ∧ (loadAddClientAmid blankPage "key" "qBittorrent" otherAddOpen
        (Reply.resolved exampleOptions)).page.addForm.rows.map Row.ids =
      [["add-title-input"], ["add-baseurl-input"], ["add-username-input"],
        ["add-password-input"], ["add-username-input"], ["add-password-input"]]
    ∧ loadAddClient crowdedPage "key" "qBittorrent" (Reply.resolved exampleOptions) =
      Outcome.completed
        (loadAddClient crowdedPage "key" "qBittorrent" (Reply.resolved exampleOptions)).page
    ∧ (loadAddClient crowdedPage "key" "qBittorrent"
        (Reply.resolved exampleOptions)).page.addForm.rows.map Row.ids =
      [["add-title-input", "add-token-input"], ["add-baseurl-input"],
        ["add-username-input"], ["add-password-input"]]
    ∧ (saveAddClient
        (loadAddClient crowdedPage "key" "qBittorrent" (Reply.resolved exampleOptions)).page
        "key" (Reply.resolved { success := true, description := none }) (Reply.resolved ())
        (Reply.resolved [])).issuedSince
        (loadAddClient crowdedPage "key" "qBittorrent" (Reply.resolved exampleOptions)).page.log
      = [ sendAPI "POST" "/externalclients/test" "key"
            (some [("client_type", JsVal.str "qBittorrent"), ("base_url", JsVal.str ""),
              ("username", JsVal.null), ("password", JsVal.null),
              ("api_token", JsVal.str "secret")]),
          sendAPI "POST" "/externalclients" "key"
            (some [("client_type", JsVal.str "qBittorrent"), ("title", JsVal.str ""),
              ("base_url", JsVal.str ""), ("username", JsVal.null),
              ("password", JsVal.null), ("api_token", JsVal.str "secret")]),
          fetchAPI "/externalclients" "key" ] := by
  refine ⟨rfl, rfl, rfl, rfl, rfl⟩


end Kapowarr
